import Mathlib

/-!
# my-finance-backend: route handlers over a relational store

A shallow embedding of the Express route handlers of `src/routes/categories.js`,
`src/routes/expenses.js` and `src/routes/auth.js`.

Modelling conventions.

* A handler is a pure function from the store (and the request) to a reply and the
  next store.  Every `await supabase...` call is one step on the store; the calls of
  one handler are sequenced as the source sequences them.
* The store is the three tables as lists of rows in insertion order, plus the next
  value of the id sequence of `categories` and of `expenses`.  Transport failures of
  the store, of the Credential Service and of the mail sender are outside the model:
  a store call fails only when the statement itself is rejected.
* Request bodies and token payloads are JSON objects of JavaScript values, so that
  `a || b` and a read of an absent property behave as in the source.
* Numbers are signed decimals with exact arithmetic; the rounding of JavaScript
  doubles is not modelled.  Dates are ISO-8601 strings, as everywhere in the source,
  and are compared character by character, which is chronological order on
  `YYYY-MM-DD`.
-/

namespace MyFinance

/-! ## Numbers -/

/-- A signed decimal number `mantissa / 10 ^ scale`: the numbers of JSON texts and of
numeric columns.  Every number a parsed request body can hold (a finite JavaScript
double) is such a number.  A number has several representations (`1.50` and `1.5`);
the handlers never compare two numbers. -/
structure Decimal where
  mantissa : Int
  scale : Nat
  deriving DecidableEq, Repr

/-- The integer `n` as a decimal. -/
def Decimal.ofInt (n : Int) : Decimal :=
  { mantissa := n, scale := 0 }

instance decimalOfNat (n : Nat) : OfNat Decimal n :=
  ⟨Decimal.ofInt n⟩

instance decimalNeg : Neg Decimal :=
  ⟨fun d => { mantissa := -d.mantissa, scale := d.scale }⟩

/-- Exact sum of two decimals, at the larger of the two scales. -/
def Decimal.add (a b : Decimal) : Decimal :=
  { mantissa := a.mantissa * 10 ^ (max a.scale b.scale - a.scale)
      + b.mantissa * 10 ^ (max a.scale b.scale - b.scale)
    scale := max a.scale b.scale }

instance decimalAdd : Add Decimal :=
  ⟨Decimal.add⟩

/-- The integer a decimal denotes, when it denotes one. -/
def Decimal.toInt? (d : Decimal) : Option Int :=
  if d.mantissa % 10 ^ d.scale = 0 then some (d.mantissa / 10 ^ d.scale) else none

/-! ## JavaScript values -/

/-- JavaScript values that reach the handlers through JSON bodies, query strings and
token payloads.  Arrays and objects are never inspected by the handlers and are
represented by the single constructor `composite`. -/
inductive JsVal where
  | undefined
  | null
  | bool (b : Bool)
  | num (n : Decimal)
  | str (s : String)
  | composite
  deriving DecidableEq, Repr

/-- JavaScript truthiness: `undefined`, `null`, `false`, `0` and `""` are falsy. -/
def JsVal.truthy : JsVal → Bool
  | .undefined => false
  | .null => false
  | .bool b => b
  | .num n => n.mantissa != 0
  | .str s => s != ""
  | .composite => true

/-- The JavaScript expression `a || b`. -/
def JsVal.orElse (a b : JsVal) : JsVal :=
  if a.truthy then a else b

/-- A JSON object: its properties in order. -/
abbrev JsObj := List (String × JsVal)

/-- Property read `o.k`; an absent property reads as `undefined`. -/
def field (o : JsObj) (k : String) : JsVal :=
  match o.lookup k with
  | some v => v
  | none => .undefined

/-! ## Rows and the store -/

/-- Identity ids are issued by the Credential Service. -/
abbrev UserId := String

/-- Modelled from the spec: the columns of the `users` table (the database schema is
not among the sources); they are the columns `POST /auth/register` upserts. -/
structure User where
  id : UserId
  email : String
  email_confirmation_token : Option String
  email_confirmed : Bool
  created_at : String
  deriving DecidableEq, Repr

/-- Modelled from the spec: the columns of the `categories` table.  A template row has
`is_default = true` and no owner. -/
structure Category where
  id : Nat
  user_id : Option UserId
  name : String
  icon : Option String
  priority : Int
  is_default : Bool
  deriving DecidableEq, Repr

/-- Modelled from the spec: the columns of the `expenses` table. -/
structure Expense where
  id : Nat
  user_id : UserId
  amount : Decimal
  note : Option String
  category_id : Option Nat
  date : String
  deriving DecidableEq, Repr

/-- The Relational Store. -/
structure Store where
  users : List User
  categories : List Category
  expenses : List Expense
  catSeq : Nat
  expSeq : Nat
  deriving DecidableEq, Repr

/-- An HTTP reply: status code and JSON body. -/
structure Reply (β : Type) where
  status : Nat
  body : β
  deriving DecidableEq, Repr

/-! ## Store primitives -/

/-- The statement `.update(patch).eq(..).eq(..).select()`: every row selected by `p` is
replaced by its patched version; the result is the new table and the rows written.
The statement is rejected when a value does not fit the column it is written to. -/
def updateWhere {α : Type} (p : α → Bool) (f : α → Except String α) :
    List α → Except String (List α × List α)
  | [] => .ok ([], [])
  | r :: rs =>
    match updateWhere p f rs with
    | .error e => .error e
    | .ok (table, written) =>
      if p r then
        match f r with
        | .error e => .error e
        | .ok r1 => .ok (r1 :: table, r1 :: written)
      else .ok (r :: table, written)

/-- The statement `.delete().eq(..).eq(..).select()`: the remaining table and the rows
deleted. -/
def deleteWhere {α : Type} (p : α → Bool) (rows : List α) : List α × List α :=
  (rows.filter (fun r => !p r), rows.filter p)

/-- The modifier `.single()`: the one row of the result, an error for zero or several. -/
def single {α : Type} (rows : List α) : Except String α :=
  match rows with
  | [r] => .ok r
  | _ => .error "PGRST116"

/-! ## Categories (`src/routes/categories.js`) -/

/-- The projection `select('name, icon, priority')`. -/
structure TemplateCols where
  name : String
  icon : Option String
  priority : Int
  deriving DecidableEq, Repr

/-- A category row as handed to `.insert(..)`: the id is assigned by the store. -/
structure NewCategory where
  user_id : Option UserId
  name : String
  icon : Option String
  priority : Int
  is_default : Bool
  deriving DecidableEq, Repr

/-- The columns `name, icon, priority` of a category row. -/
def Category.cols (c : Category) : TemplateCols :=
  { name := c.name, icon := c.icon, priority := c.priority }

/-- Bodies of the replies of the category routes. -/
inductive CategoryBody where
  | list (cs : List Category)
  | row (c : Category)
  | message (m : String)
  | deleted (m : String) (c : Category)
  | restored (m : String) (cs : List Category)
  | error (m : String)
  deriving DecidableEq, Repr

/-- Rows of a bulk insert receive consecutive ids from the sequence. -/
def assignIds (next : Nat) : List NewCategory → List Category
  | [] => []
  | r :: rs =>
    { id := next, user_id := r.user_id, name := r.name, icon := r.icon,
      priority := r.priority, is_default := r.is_default } :: assignIds (next + 1) rs

/-- The statement `from('categories').insert(rows)`: the next store and the rows
inserted. -/
def insertCategories (s : Store) (rows : List NewCategory) : Store × List Category :=
  let inserted := assignIds s.catSeq rows
  ({ s with categories := s.categories ++ inserted, catSeq := s.catSeq + rows.length },
    inserted)

/-- The query `select('*').eq('user_id', userId)`. -/
def ownedCategories (s : Store) (userId : UserId) : List Category :=
  s.categories.filter (fun c => c.user_id = some userId)

/-- The query `select('name, icon, priority').eq('is_default', true)`. -/
def defaultCategories (s : Store) : List TemplateCols :=
  (s.categories.filter (fun c => c.is_default)).map Category.cols

/-- The clone `{...cat, user_id: userId, is_default: false}`. -/
def cloneFor (userId : UserId) (cat : TemplateCols) : NewCategory :=
  { user_id := some userId, name := cat.name, icon := cat.icon,
    priority := cat.priority, is_default := false }

/-- The ordering `.order('priority', asc).order('id', asc)`. -/
def catOrder (a b : Category) : Prop :=
  a.priority < b.priority ∨ (a.priority = b.priority ∧ a.id ≤ b.id)

instance catOrderDecidable : DecidableRel catOrder := fun a b => by
  unfold catOrder
  exact inferInstance

instance catOrderTotal : IsTotal Category catOrder where
  total a b := by
    unfold catOrder
    omega

instance catOrderTrans : IsTrans Category catOrder where
  trans a b c := by
    unfold catOrder
    omega

/-- Handler `GET /categories`. -/
def getCategories (s : Store) (userId : UserId) : Reply CategoryBody × Store :=
  let userCategories := ownedCategories s userId
  let s1 :=
    if userCategories.length = 0 then
      (insertCategories s ((defaultCategories s).map (cloneFor userId))).1
    else s
  let categories := (ownedCategories s1 userId).insertionSort catOrder
  (⟨200, .list categories⟩, s1)

/-- The object `{name, icon, priority}` handed to `.update(..)`. -/
structure CategoryPatch where
  name : JsVal
  icon : JsVal
  priority : JsVal
  deriving DecidableEq, Repr

/-- Modelled from the spec: the `name` column holds a text.  An `undefined` property
is dropped by JSON serialisation and keeps the column; any other value must be text. -/
def writeName (v : JsVal) (old : String) : Except String String :=
  match v with
  | .undefined => .ok old
  | .str x => .ok x
  | _ => .error "name"

/-- Modelled from the spec: the `icon` column holds a text or null. -/
def writeIcon (v : JsVal) (old : Option String) : Except String (Option String) :=
  match v with
  | .undefined => .ok old
  | .null => .ok none
  | .str x => .ok (some x)
  | _ => .error "icon"

/-- Modelled from the spec: the `priority` column holds an integer. -/
def writePriority (v : JsVal) (old : Int) : Except String Int :=
  match v with
  | .undefined => .ok old
  | .num x =>
    match x.toInt? with
    | some n => .ok n
    | none => .error "priority"
  | _ => .error "priority"

/-- Writing a patch to a row: every value must fit the column it is written to. -/
def applyCategoryPatch (p : CategoryPatch) (c : Category) : Except String Category :=
  match writeName p.name c.name, writeIcon p.icon c.icon,
      writePriority p.priority c.priority with
  | .ok n, .ok i, .ok q => .ok { c with name := n, icon := i, priority := q }
  | .error e, _, _ => .error e
  | _, .error e, _ => .error e
  | _, _, .error e => .error e

/-- Handler `PUT /categories/:id`. -/
def putCategory (s : Store) (userId : UserId) (id : Nat) (body : JsObj) :
    Reply CategoryBody × Store :=
  let patch : CategoryPatch :=
    { name := field body "name", icon := field body "icon",
      priority := field body "priority" }
  match updateWhere (fun c : Category => c.id = id ∧ c.user_id = some userId)
      (applyCategoryPatch patch) s.categories with
  | .error e => (⟨500, .error e⟩, s)
  | .ok (table, data) =>
    match data with
    | [] => (⟨404, .message "Категория не найдена"⟩, { s with categories := table })
    | c :: _ => (⟨200, .row c⟩, { s with categories := table })

/-- Handler `DELETE /categories/:id`. -/
def deleteCategory (s : Store) (userId : UserId) (id : Nat) : Reply CategoryBody × Store :=
  let (table, data) :=
    deleteWhere (fun c : Category => c.id = id ∧ c.user_id = some userId) s.categories
  match data with
  | [] => (⟨404, .message "Категория не найдена"⟩, { s with categories := table })
  | c :: _ => (⟨200, .deleted "Категория удалена" c⟩, { s with categories := table })

/-- Handler `POST /categories/restore-all`. -/
def restoreAll (s : Store) (userId : UserId) : Reply CategoryBody × Store :=
  let defaults := defaultCategories s
  let userCategoryNames := (ownedCategories s userId).map (fun c => c.name)
  let categoriesToAdd := defaults.filter (fun cat => !userCategoryNames.contains cat.name)
  if categoriesToAdd.length = 0 then
    (⟨200, .message "Все дефолтные категории уже есть у пользователя"⟩, s)
  else
    let (s1, inserted) := insertCategories s (categoriesToAdd.map (cloneFor userId))
    (⟨200, .restored ("Добавлено " ++ toString inserted.length ++ " категорий") inserted⟩, s1)

/-! ## Dates and the clock -/

/-- Character-by-character comparison of two texts. -/
def lexLe : List Char → List Char → Bool
  | [], _ => true
  | _ :: _, [] => false
  | a :: as, b :: bs => a.toNat < b.toNat || (a.toNat == b.toNat && lexLe as bs)

/-- The store filters `gte` / `lte` on the `date` column. -/
def dateLe (a b : String) : Bool :=
  lexLe a.data b.data

/-- The expression `iso.split('T')[0]`. -/
def isoDatePart (iso : String) : String :=
  String.mk (iso.data.takeWhile (fun ch => ch != 'T'))

/-- A calendar date; the month is 1-based. -/
structure Civil where
  year : Nat
  month : Nat
  day : Nat
  deriving DecidableEq, Repr

/-- What the handlers read from `new Date()`. -/
structure Clock where
  /-- The value of `toISOString()`: the current UTC instant. -/
  iso : String
  /-- The value of `getFullYear()`: the year in the local zone of the server. -/
  fullYear : Nat
  /-- The value of `getMonth()`: the 0-based month in the local zone of the server. -/
  month : Nat
  /-- Minutes by which the local zone of the server is ahead of UTC (negative when it
  is behind) at local midnight of the given local date, less than a day either way.
  The offset is that of the date asked about, so it follows daylight saving. -/
  tzOffset : Civil → Int
  /-- Seconds since the epoch, the `iat` of a token signed now. -/
  unixSec : Nat

/-- Gregorian leap years. -/
def isLeap (y : Nat) : Bool :=
  (y % 4 == 0 && y % 100 != 0) || y % 400 == 0

/-- Number of days of the 1-based month `m` of year `y`. -/
def daysInMonth (y m : Nat) : Nat :=
  if m = 2 then (if isLeap y then 29 else 28)
  else if m = 4 ∨ m = 6 ∨ m = 9 ∨ m = 11 then 30
  else 31

/-- The day before a calendar date. -/
def prevDay (d : Civil) : Civil :=
  if 1 < d.day then { d with day := d.day - 1 }
  else if 1 < d.month then
    { d with month := d.month - 1, day := daysInMonth d.year (d.month - 1) }
  else { year := d.year - 1, month := 12, day := 31 }

/-- Decimal rendering, left-padded with zeros to width `w`. -/
def pad (w n : Nat) : String :=
  String.mk (List.replicate (w - (toString n).length) '0') ++ toString n

/-- The text `YYYY-MM-DD` of a calendar date, as `toISOString()` renders the years
0 to 9999. -/
def isoDate (d : Civil) : String :=
  pad 4 d.year ++ "-" ++ pad 2 d.month ++ "-" ++ pad 2 d.day

/-- The expression `new Date(y, m, d).toISOString().split('T')[0]`: the UTC date of
local midnight of a local calendar date.  Local midnight falls on the previous UTC
day exactly when the local zone is ahead of UTC on that date. -/
def localMidnightIsoDate (tzOffset : Civil → Int) (d : Civil) : String :=
  isoDate (if 0 < tzOffset d then prevDay d else d)

/-- The expression
`new Date(now.getFullYear(), now.getMonth(), 1).toISOString().split('T')[0]`. -/
def firstDay (clk : Clock) : String :=
  localMidnightIsoDate clk.tzOffset
    { year := clk.fullYear, month := clk.month + 1, day := 1 }

/-- The expression
`new Date(now.getFullYear(), now.getMonth() + 1, 0).toISOString().split('T')[0]`:
day 0 of the next month is the last day of this month. -/
def lastDay (clk : Clock) : String :=
  localMidnightIsoDate clk.tzOffset
    { year := clk.fullYear, month := clk.month + 1,
      day := daysInMonth clk.fullYear (clk.month + 1) }

/-! ## Expenses (`src/routes/expenses.js`) -/

/-- A row of the summary query
`select('amount, date, categories!inner(name, priority)')`. -/
structure SummaryRow where
  amount : Decimal
  date : String
  name : String
  priority : Int
  deriving DecidableEq, Repr

/-- Bodies of the replies of the expense routes. -/
inductive ExpenseBody where
  | row (e : Expense)
  | message (m : String)
  | deleted (m : String) (e : Expense)
  | summary (total : Decimal) (count : Nat) (expenses : List SummaryRow)
  | today (date : String) (total : Decimal)
  | month (month year : Nat) (total : Decimal)
  | error (m : String)
  deriving DecidableEq, Repr

/-- The object handed to `.insert(..)` / `.update(..)` by the expense routes, without
the owner. -/
structure ExpensePayload where
  amount : JsVal
  note : JsVal
  category_id : JsVal
  date : JsVal
  deriving DecidableEq, Repr

/-- The object literal
`{amount, note: note || null, category_id: category_id || null,
  date: date || new Date().toISOString()}` built from `req.body`. -/
def expensePayload (body : JsObj) (clk : Clock) : ExpensePayload :=
  { amount := field body "amount"
    note := (field body "note").orElse .null
    category_id := (field body "category_id").orElse .null
    date := (field body "date").orElse (.str clk.iso) }

/-- Modelled from the spec: the `amount` column holds a signed number.  `old` is the
value the column keeps when the property is `undefined` (absent for a new row). -/
def writeAmount (v : JsVal) (old : Option Decimal) : Except String Decimal :=
  match v, old with
  | .num x, _ => .ok x
  | .undefined, some o => .ok o
  | _, _ => .error "amount"

/-- Modelled from the spec: the `note` column holds a text or null. -/
def writeNote (v : JsVal) (old : Option String) : Except String (Option String) :=
  match v with
  | .undefined => .ok old
  | .null => .ok none
  | .str x => .ok (some x)
  | _ => .error "note"

/-- Modelled from the spec: the `category_id` column holds null or a reference to a
category, a foreign key: the id of a row of `cats`, the categories table. -/
def writeCategoryId (cats : List Category) (v : JsVal) (old : Option Nat) :
    Except String (Option Nat) :=
  match v with
  | .undefined => .ok old
  | .null => .ok none
  | .num x =>
    match x.toInt? with
    | some n =>
      if 0 ≤ n ∧ ∃ c ∈ cats, c.id = n.toNat then .ok (some n.toNat)
      else .error "category_id"
    | none => .error "category_id"
  | _ => .error "category_id"

/-- Modelled from the spec: the `date` column holds a date, kept as the text that was
written. -/
def writeDate (v : JsVal) (old : Option String) : Except String String :=
  match v, old with
  | .str x, _ => .ok x
  | .undefined, some o => .ok o
  | _, _ => .error "date"

/-- The row that `.insert({user_id: userId, ...payload})` creates under id `id`. -/
def newExpense (cats : List Category) (id : Nat) (userId : UserId) (p : ExpensePayload) :
    Except String Expense :=
  match writeAmount p.amount none, writeNote p.note none,
      writeCategoryId cats p.category_id none, writeDate p.date none with
  | .ok a, .ok n, .ok c, .ok d =>
    .ok { id := id, user_id := userId, amount := a, note := n, category_id := c, date := d }
  | .error e, _, _, _ => .error e
  | _, .error e, _, _ => .error e
  | _, _, .error e, _ => .error e
  | _, _, _, .error e => .error e

/-- Writing the payload of an update to a row. -/
def applyExpensePayload (cats : List Category) (p : ExpensePayload) (e : Expense) :
    Except String Expense :=
  match writeAmount p.amount (some e.amount), writeNote p.note e.note,
      writeCategoryId cats p.category_id e.category_id, writeDate p.date (some e.date) with
  | .ok a, .ok n, .ok c, .ok d =>
    .ok { e with amount := a, note := n, category_id := c, date := d }
  | .error m, _, _, _ => .error m
  | _, .error m, _, _ => .error m
  | _, _, .error m, _ => .error m
  | _, _, _, .error m => .error m

/-- Handler `POST /expenses`. -/
def postExpense (s : Store) (userId : UserId) (body : JsObj) (clk : Clock) :
    Reply ExpenseBody × Store :=
  match newExpense s.categories s.expSeq userId (expensePayload body clk) with
  | .error e => (⟨500, .error e⟩, s)
  | .ok row =>
    (⟨201, .row row⟩, { s with expenses := s.expenses ++ [row], expSeq := s.expSeq + 1 })

/-- Handler `PUT /expenses/:id`. -/
def putExpense (s : Store) (userId : UserId) (id : Nat) (body : JsObj) (clk : Clock) :
    Reply ExpenseBody × Store :=
  match updateWhere (fun e : Expense => e.id = id ∧ e.user_id = userId)
      (applyExpensePayload s.categories (expensePayload body clk)) s.expenses with
  | .error e => (⟨500, .error e⟩, s)
  | .ok (table, data) =>
    match data with
    | [] => (⟨404, .message "Расход не найден"⟩, { s with expenses := table })
    | e :: _ => (⟨200, .row e⟩, { s with expenses := table })

/-- Handler `DELETE /expenses/:id`. -/
def deleteExpense (s : Store) (userId : UserId) (id : Nat) : Reply ExpenseBody × Store :=
  let (table, data) :=
    deleteWhere (fun e : Expense => e.id = id ∧ e.user_id = userId) s.expenses
  match data with
  | [] => (⟨404, .message "Расход не найден"⟩, { s with expenses := table })
  | e :: _ => (⟨200, .deleted "Расход удалён" e⟩, { s with expenses := table })

/-- The query string of `GET /expenses/summary`: the parameters `date`, `from` and
`to`. -/
structure SummaryQuery where
  date : Option String
  dateFrom : Option String
  dateTo : Option String
  deriving DecidableEq, Repr

/-- Truthiness of a query parameter: present and not empty. -/
def present (v : Option String) : Bool :=
  match v with
  | some x => x != ""
  | none => false

/-- The date filter that `GET /expenses/summary` adds to its query. -/
def summaryWindow (q : SummaryQuery) (clk : Clock) (e : Expense) : Bool :=
  if present q.date then some e.date == q.date
  else if present q.dateFrom && present q.dateTo then
    dateLe (q.dateFrom.getD "") e.date && dateLe e.date (q.dateTo.getD "")
  else dateLe (firstDay clk) e.date && dateLe e.date (lastDay clk)

/-- The embedding `categories!inner(name, priority)`: an expense is joined with the
category its `category_id` refers to, and an expense with no such category yields no
row. -/
def joinCategory (cats : List Category) (e : Expense) : Option SummaryRow :=
  match e.category_id with
  | none => none
  | some cid =>
    (cats.find? (fun c => c.id = cid)).map
      (fun c => { amount := e.amount, date := e.date, name := c.name, priority := c.priority })

/-- Handler `GET /expenses/summary`. -/
def getSummary (s : Store) (userId : UserId) (q : SummaryQuery) (clk : Clock) :
    Reply ExpenseBody :=
  let data :=
    (s.expenses.filter (fun e => e.user_id = userId ∧ summaryWindow q clk e)).filterMap
      (joinCategory s.categories)
  let total := data.foldl (fun sum expense => sum + expense.amount) 0
  ⟨200, .summary total data.length data⟩

/-- Handler `GET /expenses/summary/today`. -/
def getSummaryToday (s : Store) (userId : UserId) (clk : Clock) : Reply ExpenseBody :=
  let today := isoDatePart clk.iso
  let data :=
    (s.expenses.filter (fun e => e.user_id = userId ∧ e.date = today)).map (fun e => e.amount)
  let total := data.foldl (fun sum amount => sum + amount) 0
  ⟨200, .today today total⟩

/-- Handler `GET /expenses/summary/month`. -/
def getSummaryMonth (s : Store) (userId : UserId) (clk : Clock) : Reply ExpenseBody :=
  let data :=
    (s.expenses.filter (fun e =>
      e.user_id = userId ∧ dateLe (firstDay clk) e.date ∧ dateLe e.date (lastDay clk))).map
      (fun e => e.amount)
  let total := data.foldl (fun sum amount => sum + amount) 0
  ⟨200, .month (clk.month + 1) clk.fullYear total⟩

/-- The `total` of a reply of the summary routes. -/
def totalOf (r : Reply ExpenseBody) : Option Decimal :=
  match r.body with
  | .summary total _ _ => some total
  | .today _ total => some total
  | .month _ _ total => some total
  | _ => none

/-- The `count` of a reply of `GET /expenses/summary`. -/
def countOf (r : Reply ExpenseBody) : Option Nat :=
  match r.body with
  | .summary _ count _ => some count
  | _ => none

/-! ## Authentication (`src/routes/auth.js`) -/

/-- The identity the Credential Service returns in `data.user`. -/
structure AuthUser where
  id : UserId
  email : String
  deriving DecidableEq, Repr

/-- The Credential Service call `supabase.auth.signInWithPassword({email, password})`:
an external collaborator, taken as a parameter. -/
abbrev CredentialService := JsVal → JsVal → Except String AuthUser

/-- A signed token: its claims and the secret it was signed with. -/
structure Jwt where
  payload : JsObj
  key : String
  deriving DecidableEq, Repr

/-- The option `expiresIn: '7d'` in seconds. -/
def sevenDays : Nat := 7 * 24 * 60 * 60

/-- The call `jwt.sign(payload, secret, {expiresIn})`: the library throws when the
secret has no value (the empty text stands for an unset `JWT_SECRET` too) and
otherwise adds the claims `iat` (now) and `exp` (now plus the lifetime). -/
def jwtSign (payload : JsObj) (secret : String) (expiresIn : Nat) (clk : Clock) :
    Except String Jwt :=
  if secret = "" then .error "secretOrPrivateKey must have a value"
  else
    .ok { payload := payload ++
            [("iat", .num (Decimal.ofInt clk.unixSec)),
             ("exp", .num (Decimal.ofInt (clk.unixSec + expiresIn : Nat)))]
          key := secret }

/-- Bodies of the replies of the auth routes. -/
inductive AuthBody where
  | session (token : Jwt) (id : UserId) (email : String)
  | user (data : JsObj)
  | text (t : String)
  | message (m : String)
  | error (m : String)
  deriving DecidableEq, Repr

/-- The token of a reply, if it carries one. -/
def tokenOf (r : Reply AuthBody) : Option Jwt :=
  match r.body with
  | .session token _ _ => some token
  | _ => none

/-- Handler `POST /auth/login`; `secret` is `process.env.JWT_SECRET`.  What `jwt.sign`
throws is caught by the handler and answered 500. -/
def login (cred : CredentialService) (secret : String) (s : Store) (body : JsObj)
    (clk : Clock) : Reply AuthBody :=
  match cred (field body "email") (field body "password") with
  | .error e => ⟨400, .error e⟩
  | .ok dataUser =>
    match single (s.users.filter (fun r => r.id = dataUser.id)) with
    | .error _ => ⟨400, .error "Ошибка при проверке пользователя"⟩
    | .ok userData =>
      if !userData.email_confirmed then ⟨403, .error "Email не подтверждён"⟩
      else
        match jwtSign [("userId", .str dataUser.id), ("email", .str dataUser.email)]
            secret sevenDays clk with
        | .error _ => ⟨500, .error "Ошибка сервера при входе"⟩
        | .ok token => ⟨200, .session token dataUser.id dataUser.email⟩

/-- The patch `.update({email_confirmed: true, email_confirmation_token: null})`
written to a row. -/
def markConfirmed (r : User) : User :=
  { r with email_confirmed := true, email_confirmation_token := none }

/-- Handler `GET /auth/confirm-email?token=`. -/
def confirmEmail (s : Store) (token : Option String) : Reply AuthBody × Store :=
  if !present token then (⟨400, .error "Токен отсутствует"⟩, s)
  else
    match single (s.users.filter (fun r => r.email_confirmation_token = token)) with
    | .error _ => (⟨400, .error "Неверный токен"⟩, s)
    | .ok user =>
      if user.email_confirmed then (⟨400, .error "Email уже подтверждён"⟩, s)
      else
        (⟨200, .text "Email подтверждён!"⟩,
          { s with users := s.users.map (fun r =>
              if r.id = user.id then markConfirmed r else r) })

/-- Modelled from the spec: the Auth Token Guard (`authMiddleware`, which is not among
the sources).  It verifies signature and expiry of the bearer token and, on success,
attaches the decoded payload to the request as `req.user`; otherwise it replies 401. -/
def authGuard (secret : String) (clk : Clock) (bearer : Option Jwt) :
    Except (Reply AuthBody) JsObj :=
  match bearer with
  | none => .error ⟨401, .error "Unauthorized"⟩
  | some t =>
    match field t.payload "exp" with
    | .num exp =>
      match exp.toInt? with
      | some expSec =>
        if secret ≠ "" ∧ t.key = secret ∧ (clk.unixSec : Int) < expSec then .ok t.payload
        else .error ⟨401, .error "Unauthorized"⟩
      | none => .error ⟨401, .error "Unauthorized"⟩
    | _ => .error ⟨401, .error "Unauthorized"⟩

/-- Names of the columns of `users`. -/
def userColumns : List String :=
  ["id", "email", "email_confirmation_token", "email_confirmed", "created_at"]

/-- The value of a column of a `users` row; `none` for a name that is not a column. -/
def User.column (r : User) (col : String) : Option JsVal :=
  if col = "id" then some (.str r.id)
  else if col = "email" then some (.str r.email)
  else if col = "email_confirmation_token" then
    some (match r.email_confirmation_token with | some t => .str t | none => .null)
  else if col = "email_confirmed" then some (.bool r.email_confirmed)
  else if col = "created_at" then some (.str r.created_at)
  else none

/-- The query `from('users').select(cols).eq(col, v)`: rejected when it names a column
the table does not have; a comparison with SQL `NULL` selects nothing. -/
def selectUsersEq (cols : List String) (col : String) (v : JsVal) (rows : List User) :
    Except String (List JsObj) :=
  if col ∈ userColumns ∧ ∀ c ∈ cols, c ∈ userColumns then
    .ok ((rows.filter (fun r => r.column col = some v ∧ v ≠ .null)).map
      (fun r => cols.map (fun c => (c, (r.column c).getD .undefined))))
  else .error "42703"

/-- Handler `GET /auth/user`; `reqUser` is the `req.user` the guard attached. -/
def getUser (s : Store) (reqUser : JsObj) : Reply AuthBody :=
  let userId := field reqUser "uuid"
  match (selectUsersEq ["email", "name"] "uuid" userId s.users).bind single with
  | .error _ => ⟨404, .message "Пользователь не найден"⟩
  | .ok data => ⟨200, .user data⟩

/-- The route `GET /auth/user` behind its guard. -/
def getUserRoute (secret : String) (s : Store) (clk : Clock) (bearer : Option Jwt) :
    Reply AuthBody :=
  match authGuard secret clk bearer with
  | .error r => r
  | .ok reqUser => getUser s reqUser

/-! ## Concrete stores and requests -/

/-- A clock on 15 May 2024, 10:00 UTC, on a server whose local zone is UTC. -/
def clkMay : Clock :=
  { iso := "2024-05-15T10:00:00.000Z", fullYear := 2024, month := 4,
    tzOffset := fun _ => 0, unixSec := 1715767200 }

/-- A store in which every category and expense belongs to `bob`. -/
def storeBob : Store :=
  { users := []
    categories :=
      [{ id := 1, user_id := some "bob", name := "Food", icon := none, priority := 0,
         is_default := false }]
    expenses :=
      [{ id := 1, user_id := "bob", amount := 10, note := none, category_id := some 1,
         date := "2024-05-01" }]
    catSeq := 2
    expSeq := 2 }

/-- A request body that names the caller as owner. -/
def bodyWithOwner : JsObj :=
  [("user_id", .str "alice"), ("name", .str "Mine"), ("icon", .null), ("priority", .num 1),
   ("amount", .num 1)]

/-- A store with three template rows and one category of `bob`. -/
def storeTemplates : Store :=
  { users := []
    categories :=
      [{ id := 1, user_id := none, name := "Food", icon := some "🍔", priority := 2,
         is_default := true },
       { id := 2, user_id := none, name := "Transport", icon := none, priority := 1,
         is_default := true },
       { id := 3, user_id := none, name := "Fun", icon := none, priority := 1,
         is_default := true },
       { id := 4, user_id := some "bob", name := "Food", icon := none, priority := 0,
         is_default := false }]
    expenses := []
    catSeq := 5
    expSeq := 1 }

/-- The set RestoreDefaults is to add, in the words of the spec: the template rows whose
name is not the name of any category the user owns. -/
def missingTemplates (s : Store) (u : UserId) : List TemplateCols :=
  ((s.categories.filter (fun c => c.is_default = true)).map Category.cols).filter
    (fun t => ∀ c ∈ s.categories, c.user_id = some u → c.name ≠ t.name)

/-- User categories {"Food"} and templates {"Food", "Transport"}. -/
def storeFood : Store :=
  { users := []
    categories :=
      [{ id := 1, user_id := none, name := "Food", icon := none, priority := 1,
         is_default := true },
       { id := 2, user_id := none, name := "Transport", icon := none, priority := 2,
         is_default := true },
       { id := 3, user_id := some "alice", name := "Food", icon := none, priority := 1,
         is_default := false }]
    expenses := []
    catSeq := 4
    expSeq := 1 }

/-- The expenses of the example of the spec, owned by `alice`, with no category
reference, next to the same two expenses filed under a category. -/
def storeSummary : Store :=
  { users := []
    categories :=
      [{ id := 1, user_id := some "alice", name := "Food", icon := none, priority := 0,
         is_default := false }]
    expenses :=
      [{ id := 1, user_id := "alice", amount := 10, note := none, category_id := none,
         date := "2024-05-01" },
       { id := 2, user_id := "alice", amount := 5, note := none, category_id := none,
         date := "2024-05-02" },
       { id := 3, user_id := "carol", amount := 10, note := none, category_id := some 1,
         date := "2024-05-01" },
       { id := 4, user_id := "carol", amount := 5, note := none, category_id := some 1,
         date := "2024-05-02" }]
    catSeq := 2
    expSeq := 5 }

/-- One expense of `alice` dated today (15 May 2024) with no category reference. -/
def storeToday : Store :=
  { users := []
    categories := []
    expenses :=
      [{ id := 1, user_id := "alice", amount := 10, note := none, category_id := none,
         date := "2024-05-15" }]
    catSeq := 1
    expSeq := 2 }

/-- The clock of `clkMay` on a server whose local zone is three hours ahead of UTC. -/
def clkMayEast : Clock :=
  { clkMay with tzOffset := fun _ => 180 }

/-- A clock on 15 October 2024 on a server in a zone that is one hour ahead of UTC
until 27 October and on UTC from then on. -/
def clkOctober : Clock :=
  { iso := "2024-10-15T10:00:00.000Z", fullYear := 2024, month := 9,
    tzOffset := fun d => if d.month < 10 ∨ (d.month = 10 ∧ d.day < 27) then 60 else 0,
    unixSec := 1728986400 }

/-- One expense of `alice` on the last day of May 2024, filed under a category. -/
def storeMonthEnd : Store :=
  { users := []
    categories :=
      [{ id := 1, user_id := some "alice", name := "Food", icon := none, priority := 0,
         is_default := false }]
    expenses :=
      [{ id := 1, user_id := "alice", amount := 7, note := none, category_id := some 1,
         date := "2024-05-31" }]
    catSeq := 2
    expSeq := 2 }

/-- A Credential Service that knows `alice`. -/
def credAlice : CredentialService := fun email password =>
  if email = .str "alice@example.com" ∧ password = .str "pw" then
    .ok { id := "u1", email := "alice@example.com" }
  else .error "Invalid login credentials"

/-- The login request of `alice`. -/
def loginBody : JsObj :=
  [("email", .str "alice@example.com"), ("password", .str "pw")]

/-- A store in which `alice` is registered and confirmed. -/
def storeAlice : Store :=
  { users :=
      [{ id := "u1", email := "alice@example.com", email_confirmation_token := none,
         email_confirmed := true, created_at := "2024-05-01T00:00:00.000Z" }]
    categories := []
    expenses := []
    catSeq := 1
    expSeq := 1 }

/-- A store in which `alice` is registered and holds the unredeemed token `"tok-a"`,
next to a confirmed user. -/
def storePending : Store :=
  { users :=
      [{ id := "u1", email := "alice@example.com", email_confirmation_token := some "tok-a",
         email_confirmed := false, created_at := "2024-05-01T00:00:00.000Z" },
       { id := "u2", email := "bob@example.com", email_confirmation_token := none,
         email_confirmed := true, created_at := "2024-04-01T00:00:00.000Z" }]
    categories := []
    expenses := []
    catSeq := 1
    expSeq := 1 }

/-- The row of `alice` in `storePending`. -/
def rowAlice : User :=
  { id := "u1", email := "alice@example.com", email_confirmation_token := some "tok-a",
    email_confirmed := false, created_at := "2024-05-01T00:00:00.000Z" }

/-- JavaScript falsiness in the words of the language: `undefined`, `null`, `false`,
a zero and the empty text are falsy, every other value is truthy. -/
def Falsy : JsVal → Prop
  | .undefined => True
  | .null => True
  | .bool b => b = false
  | .num d => d.mantissa = 0
  | .str x => x = ""
  | .composite => False

instance falsyDecidable (v : JsVal) : Decidable (Falsy v) := by
  cases v <;> unfold Falsy <;> exact inferInstance

/-- The defaulting rule of the expense routes for the columns `note`, `category_id` and
`date` of a row `R` written for the request body `body` at time `clk`: a supplied
truthy value is the value of the column, and a value that is omitted or falsy gives
null, for the date the current timestamp. -/
def DefaultedFrom (body : JsObj) (clk : Clock) (R : Expense) : Prop :=
  (∀ x, field body "note" = .str x → x ≠ "" → R.note = some x) ∧
  (Falsy (field body "note") → R.note = none) ∧
  (∀ d, field body "category_id" = .num d → d.mantissa ≠ 0 →
    ∃ n : Nat, d.toInt? = some (n : Int) ∧ R.category_id = some n) ∧
  (Falsy (field body "category_id") → R.category_id = none) ∧
  (∀ x, field body "date" = .str x → x ≠ "" → R.date = x) ∧
  (Falsy (field body "date") → R.date = clk.iso)

/-- The optional properties of a body fit their columns: each of `note` and `date` is
falsy or a text, and `category_id` is falsy or the id of a row of `cats`. -/
def FitsOptionals (cats : List Category) (body : JsObj) : Prop :=
  (Falsy (field body "note") ∨ ∃ x, field body "note" = .str x) ∧
  (Falsy (field body "category_id") ∨
    ∃ d, ∃ n : Nat, field body "category_id" = .num d ∧ d.toInt? = some (n : Int) ∧
      ∃ c ∈ cats, c.id = n) ∧
  (Falsy (field body "date") ∨ ∃ x, field body "date" = .str x)

/-- A request body with a decimal amount and explicit nulls. -/
def bodyNulls : JsObj :=
  [("amount", .num { mantissa := 105, scale := 1 }), ("note", .null),
   ("category_id", .null), ("date", .null)]

/-- A store with no rows. -/
def storeEmpty : Store :=
  { users := [], categories := [], expenses := [], catSeq := 1, expSeq := 1 }

/-- A request body that supplies an empty note. -/
def bodyEmptyNote : JsObj :=
  [("amount", .num 5), ("note", .str ""), ("date", .str "2024-05-01")]

/-- A request body that supplies every property. -/
def bodyFull : JsObj :=
  [("amount", .num (-3)), ("note", .str "refund"), ("category_id", .num 1),
   ("date", .str "2024-05-02")]

/-- User categories {"food"} (lower case) and the template {"Food"}. -/
def storeLowerCase : Store :=
  { users := []
    categories :=
      [{ id := 1, user_id := none, name := "Food", icon := none, priority := 1,
         is_default := true },
       { id := 2, user_id := some "alice", name := "food", icon := none, priority := 1,
         is_default := false }]
    expenses := []
    catSeq := 3
    expSeq := 1 }

/-- The body `{amount: 10, date: "2024-05-01"}`. -/
def bodyTenMayFirst : JsObj :=
  [("amount", .num 10), ("date", .str "2024-05-01")]

/-- The body `{amount: 5, date: "2024-05-02"}`. -/
def bodyFiveMaySecond : JsObj :=
  [("amount", .num 5), ("date", .str "2024-05-02")]

/-! ## Store lemmas -/

theorem filter_eq_nil_of_forall {α : Type} (p : α → Bool) (rows : List α)
    (h : ∀ r ∈ rows, p r = false) : rows.filter p = [] := by
  induction rows with
  | nil => rfl
  | cons r rs ih =>
    have hr : p r = false := h r (List.mem_cons_self r rs)
    have hrs : ∀ x ∈ rs, p x = false := fun x hx => h x (List.mem_cons_of_mem r hx)
    simp [List.filter, hr, ih hrs]

theorem filter_eq_self_of_forall {α : Type} (p : α → Bool) (rows : List α)
    (h : ∀ r ∈ rows, p r = true) : rows.filter p = rows := by
  induction rows with
  | nil => rfl
  | cons r rs ih =>
    have hr : p r = true := h r (List.mem_cons_self r rs)
    have hrs : ∀ x ∈ rs, p x = true := fun x hx => h x (List.mem_cons_of_mem r hx)
    simp [List.filter, hr, ih hrs]

theorem updateWhere_no_match {α : Type} (p : α → Bool) (f : α → Except String α)
    (rows : List α) (h : ∀ r ∈ rows, p r = false) :
    updateWhere p f rows = .ok (rows, []) := by
  induction rows with
  | nil => rfl
  | cons r rs ih =>
    have hr : p r = false := h r (List.mem_cons_self r rs)
    have hrs : ∀ x ∈ rs, p x = false := fun x hx => h x (List.mem_cons_of_mem r hx)
    simp [updateWhere, ih hrs, hr]

theorem deleteWhere_no_match {α : Type} (p : α → Bool) (rows : List α)
    (h : ∀ r ∈ rows, p r = false) : deleteWhere p rows = (rows, []) := by
  unfold deleteWhere
  rw [filter_eq_nil_of_forall p rows h,
    filter_eq_self_of_forall (fun r => !p r) rows (fun r hr => by simp [h r hr])]

/-! ## Ownership scoping of Update and Delete -/

/-- C1: when no category row (resp. expense row) has both id `i` and owner `u`, the
Update and Delete handlers of categories (resp. expenses) reply 404 and return the
store they were given, whatever the request body holds. -/
theorem update_delete_not_owned (s : Store) (u : UserId) (i : Nat) (body : JsObj)
    (clk : Clock) :
    ((∀ c ∈ s.categories, ¬ (c.id = i ∧ c.user_id = some u)) →
      putCategory s u i body = (⟨404, .message "Категория не найдена"⟩, s) ∧
      deleteCategory s u i = (⟨404, .message "Категория не найдена"⟩, s)) ∧
    ((∀ e ∈ s.expenses, ¬ (e.id = i ∧ e.user_id = u)) →
      putExpense s u i body clk = (⟨404, .message "Расход не найден"⟩, s) ∧
      deleteExpense s u i = (⟨404, .message "Расход не найден"⟩, s)) := by
  refine ⟨fun h => ?_, fun h => ?_⟩
  · have hp : ∀ c ∈ s.categories,
        (fun c : Category => decide (c.id = i ∧ c.user_id = some u)) c = false := by
      intro c hc
      simpa using h c hc
    refine ⟨?_, ?_⟩
    · unfold putCategory
      simp only
      rw [updateWhere_no_match _ _ _ hp]
    · unfold deleteCategory
      rw [deleteWhere_no_match _ _ hp]
  · have hp : ∀ e ∈ s.expenses,
        (fun e : Expense => decide (e.id = i ∧ e.user_id = u)) e = false := by
      intro e he
      simpa using h e he
    refine ⟨?_, ?_⟩
    · unfold putExpense
      rw [updateWhere_no_match _ _ _ hp]
    · unfold deleteExpense
      rw [deleteWhere_no_match _ _ hp]

/-- C1 at a store where row 1 of each table belongs to `bob` and `alice` calls with a
body that names her as owner. -/
theorem update_delete_not_owned_witness :
    (∀ c ∈ storeBob.categories, ¬ (c.id = 1 ∧ c.user_id = some "alice")) ∧
    (putCategory storeBob "alice" 1 bodyWithOwner
        = (⟨404, .message "Категория не найдена"⟩, storeBob) ∧
      deleteCategory storeBob "alice" 1
        = (⟨404, .message "Категория не найдена"⟩, storeBob)) ∧
    (∀ e ∈ storeBob.expenses, ¬ (e.id = 1 ∧ e.user_id = "alice")) ∧
    (putExpense storeBob "alice" 1 bodyWithOwner clkMay
        = (⟨404, .message "Расход не найден"⟩, storeBob) ∧
      deleteExpense storeBob "alice" 1
        = (⟨404, .message "Расход не найден"⟩, storeBob)) :=
  ⟨by decide,
    (update_delete_not_owned storeBob "alice" 1 bodyWithOwner clkMay).1 (by decide),
    by decide,
    (update_delete_not_owned storeBob "alice" 1 bodyWithOwner clkMay).2 (by decide)⟩

/-! ## Bootstrapping of categories -/

theorem assignIds_clone_cols (u : UserId) (n : Nat) (ts : List TemplateCols) :
    (assignIds n (ts.map (cloneFor u))).map Category.cols = ts := by
  induction ts generalizing n with
  | nil => rfl
  | cons t ts ih =>
    simp only [List.map_cons, assignIds, ih (n + 1)]
    rfl

theorem assignIds_clone_owner (u : UserId) (n : Nat) (ts : List TemplateCols) :
    ∀ c ∈ assignIds n (ts.map (cloneFor u)), c.user_id = some u ∧ c.is_default = false := by
  induction ts generalizing n with
  | nil => intro c hc; simp [assignIds] at hc
  | cons t ts ih =>
    intro c hc
    simp only [List.map_cons, assignIds, List.mem_cons] at hc
    rcases hc with rfl | hc
    · exact ⟨rfl, rfl⟩
    · exact ih (n + 1) c hc

theorem ownedCategories_nil_iff (s : Store) (u : UserId) :
    ownedCategories s u = [] ↔ ∀ c ∈ s.categories, c.user_id ≠ some u := by
  unfold ownedCategories
  simp [List.filter_eq_nil_iff]

theorem owned_after_insert (s : Store) (u : UserId) (ts : List TemplateCols) :
    ownedCategories (insertCategories s (ts.map (cloneFor u))).1 u
      = ownedCategories s u ++ assignIds s.catSeq (ts.map (cloneFor u)) := by
  unfold ownedCategories insertCategories
  simp only [List.filter_append]
  congr 1
  apply filter_eq_self_of_forall
  intro c hc
  simp [(assignIds_clone_owner u s.catSeq ts c hc).1]

/-- C2: for a user who owns no category row, `GET /categories` replies 200 with a list
that holds exactly one row per template row (`is_default = true`), carrying the name,
icon and priority of that template, every row owned by the user with
`is_default = false`, sorted by priority ascending and then by id ascending. -/
theorem getCategories_first_call (s : Store) (u : UserId)
    (h : ∀ c ∈ s.categories, c.user_id ≠ some u) :
    ∃ cs, (getCategories s u).1 = ⟨200, .list cs⟩ ∧
      (cs.map Category.cols).Perm
        ((s.categories.filter (fun c => c.is_default = true)).map Category.cols) ∧
      (∀ c ∈ cs, c.user_id = some u ∧ c.is_default = false) ∧
      cs.Sorted catOrder := by
  have hnil : ownedCategories s u = [] := (ownedCategories_nil_iff s u).2 h
  refine ⟨(assignIds s.catSeq ((defaultCategories s).map (cloneFor u))).insertionSort catOrder,
    ?_, ?_, ?_, ?_⟩
  · unfold getCategories
    simp only [hnil, List.length_nil, if_true]
    rw [owned_after_insert, hnil, List.nil_append]
  · have hp := List.perm_insertionSort catOrder
      (assignIds s.catSeq ((defaultCategories s).map (cloneFor u)))
    have hm := hp.map Category.cols
    rw [assignIds_clone_cols] at hm
    simpa [defaultCategories] using hm
  · intro c hc
    have hp := List.perm_insertionSort catOrder
      (assignIds s.catSeq ((defaultCategories s).map (cloneFor u)))
    exact assignIds_clone_owner u s.catSeq _ c (hp.mem_iff.1 hc)
  · exact List.sorted_insertionSort catOrder _

/-- C2 at `storeTemplates` for `alice`, who owns no category there. -/
theorem getCategories_first_call_witness :
    (∀ c ∈ storeTemplates.categories, c.user_id ≠ some "alice") ∧
    (getCategories storeTemplates "alice").1
      = ⟨200, .list
          [{ id := 6, user_id := some "alice", name := "Transport", icon := none,
             priority := 1, is_default := false },
           { id := 7, user_id := some "alice", name := "Fun", icon := none,
             priority := 1, is_default := false },
           { id := 5, user_id := some "alice", name := "Food", icon := some "🍔",
             priority := 2, is_default := false }]⟩ ∧
    ∃ cs, (getCategories storeTemplates "alice").1 = ⟨200, .list cs⟩ ∧
      (cs.map Category.cols).Perm
        ((storeTemplates.categories.filter (fun c => c.is_default = true)).map Category.cols) ∧
      (∀ c ∈ cs, c.user_id = some "alice" ∧ c.is_default = false) ∧
      cs.Sorted catOrder :=
  ⟨by decide, by decide, getCategories_first_call storeTemplates "alice" (by decide)⟩

theorem insertCategories_nil (s : Store) : (insertCategories s []).1 = s := by
  cases s
  simp [insertCategories, assignIds]

theorem getCategories_of_owned (s : Store) (u : UserId) (h : ownedCategories s u ≠ []) :
    getCategories s u
      = (⟨200, .list ((ownedCategories s u).insertionSort catOrder)⟩, s) := by
  unfold getCategories
  have hlen : (ownedCategories s u).length ≠ 0 := by
    simpa [List.length_eq_zero] using h
  simp only [hlen, if_false]

/-- C3: a second `GET /categories` in a row returns the reply of the first call and
the store the first call left (so it inserts no row); and whenever the user already
owns a category the call returns the store it was given, whatever templates exist. -/
theorem getCategories_idempotent (s : Store) (u : UserId) :
    getCategories (getCategories s u).2 u = getCategories s u ∧
    ((∃ c ∈ s.categories, c.user_id = some u) → (getCategories s u).2 = s) := by
  constructor
  · by_cases h : ownedCategories s u = []
    · by_cases ht : defaultCategories s = []
      · have hs : (getCategories s u).2 = s := by
          unfold getCategories
          simp only [h, List.length_nil, if_true, ht, List.map_nil]
          exact insertCategories_nil s
        rw [hs]
      · have hfirst : getCategories s u
            = (⟨200, .list ((ownedCategories
                (insertCategories s ((defaultCategories s).map (cloneFor u))).1
                  u).insertionSort catOrder)⟩,
                (insertCategories s ((defaultCategories s).map (cloneFor u))).1) := by
          unfold getCategories
          simp only [h, List.length_nil, if_true]
        have hown : ownedCategories
            (insertCategories s ((defaultCategories s).map (cloneFor u))).1 u ≠ [] := by
          rw [owned_after_insert, h, List.nil_append]
          intro hnil
          have hc := assignIds_clone_cols u s.catSeq (defaultCategories s)
          rw [hnil] at hc
          exact ht hc.symm
        rw [hfirst]
        exact getCategories_of_owned _ u hown
    · rw [getCategories_of_owned s u h]
      exact getCategories_of_owned s u h
  · rintro ⟨c, hc, hu⟩
    have h : ownedCategories s u ≠ [] := by
      intro hnil
      exact (ownedCategories_nil_iff s u).1 hnil c hc hu
    rw [getCategories_of_owned s u h]

/-- C3 at `storeFood`, where `alice` owns a category and lacks a copy of "Transport",
and at `storeTemplates`, where her first call bootstraps. -/
theorem getCategories_idempotent_witness :
    (∃ c ∈ storeFood.categories, c.user_id = some "alice") ∧
    getCategories (getCategories storeFood "alice").2 "alice"
      = getCategories storeFood "alice" ∧
    (getCategories storeFood "alice").2 = storeFood ∧
    getCategories (getCategories storeTemplates "alice").2 "alice"
      = getCategories storeTemplates "alice" :=
  ⟨by decide, (getCategories_idempotent storeFood "alice").1,
    (getCategories_idempotent storeFood "alice").2 (by decide),
    (getCategories_idempotent storeTemplates "alice").1⟩

/-! ## Restoring the default categories -/

theorem categoriesToAdd_eq_missing (s : Store) (u : UserId) :
    (defaultCategories s).filter
        (fun cat => !((ownedCategories s u).map (fun c => c.name)).contains cat.name)
      = missingTemplates s u := by
  have hd : defaultCategories s
      = (s.categories.filter (fun c => c.is_default = true)).map Category.cols := by
    unfold defaultCategories
    simp only [Bool.decide_eq_true]
  unfold missingTemplates
  rw [← hd]
  apply List.filter_congr
  intro t _
  have key : ((ownedCategories s u).map (fun c => c.name)).contains t.name = true ↔
      ∃ c ∈ s.categories, c.user_id = some u ∧ c.name = t.name := by
    unfold ownedCategories
    simp [List.mem_map, List.mem_filter, and_assoc]
  by_cases hm : ∀ c ∈ s.categories, c.user_id = some u → c.name ≠ t.name
  · have hc : ((ownedCategories s u).map (fun c => c.name)).contains t.name = false := by
      rw [← Bool.not_eq_true]
      intro h
      obtain ⟨c, hc, hu, hn⟩ := key.1 h
      exact hm c hc hu hn
    rw [hc, decide_eq_true hm]
    rfl
  · have hc : ((ownedCategories s u).map (fun c => c.name)).contains t.name = true := by
      apply key.2
      push_neg at hm
      exact hm
    rw [hc, decide_eq_false hm]
    rfl

/-- C4: `POST /categories/restore-all` appends to the categories table exactly the
template rows whose name is not the name (compared as texts, case-sensitively) of a
category the user owns, each with the user as owner and `is_default = false`; no
inserted row has a name the user already had; when there is no such template the
store is returned as given with only a message. -/
theorem restoreAll_adds_missing (s : Store) (u : UserId) :
    ∃ inserted,
      (restoreAll s u).2.categories = s.categories ++ inserted ∧
      inserted.map Category.cols = missingTemplates s u ∧
      (∀ c ∈ inserted, c.user_id = some u ∧ c.is_default = false) ∧
      (∀ c ∈ inserted, ∀ d ∈ s.categories, d.user_id = some u → d.name ≠ c.name) ∧
      (inserted = [] → restoreAll s u
        = (⟨200, .message "Все дефолтные категории уже есть у пользователя"⟩, s)) ∧
      (inserted ≠ [] → (restoreAll s u).1
        = ⟨200, .restored ("Добавлено " ++ toString inserted.length ++ " категорий")
            inserted⟩) := by
  have hcols := assignIds_clone_cols u s.catSeq (missingTemplates s u)
  refine ⟨assignIds s.catSeq ((missingTemplates s u).map (cloneFor u)), ?_, hcols,
    assignIds_clone_owner u s.catSeq _, ?_, ?_, ?_⟩
  · unfold restoreAll
    simp only [categoriesToAdd_eq_missing]
    split_ifs with h0
    · rw [List.length_eq_zero.1 h0]
      simp [assignIds]
    · simp [insertCategories]
  · intro c hc d hd hu
    have hmem : c.cols ∈ missingTemplates s u := by
      rw [← hcols]
      exact List.mem_map_of_mem Category.cols hc
    unfold missingTemplates at hmem
    have := (List.mem_filter.1 hmem).2
    simp only [decide_eq_true_eq] at this
    exact this d hd hu
  · intro hnil
    have h0 : missingTemplates s u = [] := by
      rw [← hcols, hnil]
      rfl
    unfold restoreAll
    simp only [categoriesToAdd_eq_missing, h0, List.length_nil, if_true]
  · intro hne
    have h0 : (missingTemplates s u).length ≠ 0 := by
      intro hl
      apply hne
      rw [List.length_eq_zero.1 hl]
      rfl
    unfold restoreAll
    simp only [categoriesToAdd_eq_missing, h0, if_false, insertCategories]

/-- C4 on the example of the spec: with user categories {"Food"} and templates
{"Food", "Transport"} only "Transport" is added; and names differing in case are
different names. -/
theorem restoreAll_adds_missing_witness :
    missingTemplates storeFood "alice" = [{ name := "Transport", icon := none, priority := 2 }] ∧
    restoreAll storeFood "alice"
      = (⟨200, .restored "Добавлено 1 категорий"
          [{ id := 4, user_id := some "alice", name := "Transport", icon := none,
             priority := 2, is_default := false }]⟩,
        { storeFood with
          categories := storeFood.categories ++
            [{ id := 4, user_id := some "alice", name := "Transport", icon := none,
               priority := 2, is_default := false }]
          catSeq := 5 }) ∧
    (restoreAll storeLowerCase "alice").2.categories
      = storeLowerCase.categories ++
        [{ id := 3, user_id := some "alice", name := "Food", icon := none, priority := 1,
           is_default := false }] ∧
    ∃ inserted,
      (restoreAll storeFood "alice").2.categories = storeFood.categories ++ inserted ∧
      inserted.map Category.cols = missingTemplates storeFood "alice" :=
  ⟨by decide, by decide, by decide,
    (restoreAll_adds_missing storeFood "alice").imp (fun _ h => ⟨h.1, h.2.1⟩)⟩

/-! ## Summaries -/

/-- C5: on the example of the spec (expenses of 10 on 2024-05-01 and 5 on 2024-05-02,
neither with a category reference) `GET /expenses/summary?date=2024-05-01` replies
total 0 and count 0, also when the two expenses were created through `POST /expenses`
with no `category_id`; the same expenses filed under a category give total 10 and
count 1, and `GET /expenses/summary/today` does count an expense with no category. -/
theorem getSummary_drops_uncategorised :
    getSummary storeSummary "alice" ⟨some "2024-05-01", none, none⟩ clkMay
      = ⟨200, .summary 0 0 []⟩ ∧
    getSummary
        (postExpense (postExpense storeEmpty "alice" bodyTenMayFirst clkMay).2 "alice"
          bodyFiveMaySecond clkMay).2
        "alice" ⟨some "2024-05-01", none, none⟩ clkMay
      = ⟨200, .summary 0 0 []⟩ ∧
    getSummary storeSummary "carol" ⟨some "2024-05-01", none, none⟩ clkMay
      = ⟨200, .summary 10 1
          [{ amount := 10, date := "2024-05-01", name := "Food", priority := 0 }]⟩ ∧
    getSummaryToday storeToday "alice" clkMay = ⟨200, .today "2024-05-15" 10⟩ := by
  decide

/-- C8: for an expense of 10 dated 15 May 2024 with no category reference, on
15 May 2024, `GET /expenses/summary` with no filter replies total 0 and
`GET /expenses/summary/month` replies total 10; likewise
`GET /expenses/summary?date=2024-05-15` replies total 0 and
`GET /expenses/summary/today` replies total 10. -/
theorem summary_month_totals_differ :
    totalOf (getSummary storeToday "alice" ⟨none, none, none⟩ clkMay) = some 0 ∧
    totalOf (getSummaryMonth storeToday "alice" clkMay) = some 10 ∧
    totalOf (getSummary storeToday "alice" ⟨some "2024-05-15", none, none⟩ clkMay) = some 0 ∧
    totalOf (getSummaryToday storeToday "alice" clkMay) = some 10 := by
  decide

/-- On a server three hours ahead of UTC the month window of May 2024 is
2024-04-30 .. 2024-05-30, so an expense dated 2024-05-31 is not summed. -/
theorem month_window_east_of_utc :
    firstDay clkMay = "2024-05-01" ∧ lastDay clkMay = "2024-05-31" ∧
    firstDay clkMayEast = "2024-04-30" ∧ lastDay clkMayEast = "2024-05-30" ∧
    totalOf (getSummaryMonth storeMonthEnd "alice" clkMay) = some 7 ∧
    totalOf (getSummaryMonth storeMonthEnd "alice" clkMayEast) = some 0 := by
  decide

/-- Each bound of the month window takes the offset in force on its own date: in a
zone that leaves daylight saving on 27 October the window of October 2024 is
2024-09-30 .. 2024-10-31. -/
theorem month_window_daylight_saving :
    firstDay clkOctober = "2024-09-30" ∧ lastDay clkOctober = "2024-10-31" := by
  decide

/-! ## The current user -/

theorem getUser_not_found (s : Store) (reqUser : JsObj) :
    getUser s reqUser = ⟨404, .message "Пользователь не найден"⟩ := by
  have hcol : ¬ ("uuid" ∈ userColumns ∧ ∀ c ∈ ["email", "name"], c ∈ userColumns) := by
    decide
  unfold getUser selectUsersEq
  simp only [hcol, if_false]
  rfl

theorem column_ne_undefined (r : User) (col : String) :
    r.column col ≠ some .undefined := by
  unfold User.column
  split_ifs <;> simp
  cases r.email_confirmation_token <;> simp

theorem selectUsersEq_undefined (cols : List String) (col : String) (rows : List User)
    (out : List JsObj) (h : selectUsersEq cols col .undefined rows = .ok out) :
    out = [] := by
  unfold selectUsersEq at h
  split_ifs at h
  have hnil : rows.filter
      (fun r => decide (r.column col = some .undefined ∧ JsVal.undefined ≠ .null)) = [] := by
    apply filter_eq_nil_of_forall
    intro r _
    simp [column_ne_undefined r col]
  rw [hnil] at h
  simp only [List.map_nil, Except.ok.injEq] at h
  exact h.symm

/-- C9: `alice` is registered and confirmed and logs in successfully; the guard accepts
the token Login issued and attaches its payload, which holds `userId` and no `uuid`;
`GET /auth/user` with that token replies 404 although her row exists. -/
theorem getUser_after_login :
    ∃ tok, login credAlice "secret" storeAlice loginBody clkMay
        = ⟨200, .session tok "u1" "alice@example.com"⟩ ∧
      authGuard "secret" clkMay (some tok) = .ok tok.payload ∧
      field tok.payload "userId" = .str "u1" ∧
      field tok.payload "uuid" = .undefined ∧
      (storeAlice.users.filter (fun r => r.id = "u1")).length = 1 ∧
      getUserRoute "secret" storeAlice clkMay (some tok)
        = ⟨404, .message "Пользователь не найден"⟩ := by
  refine ⟨{ payload := [("userId", .str "u1"), ("email", .str "alice@example.com"),
                ("iat", .num 1715767200), ("exp", .num 1716372000)]
            key := "secret" },
    by decide, by rfl, by decide, by decide, by decide, by decide⟩

/-! ## Confirmation and login -/

theorem single_eq_ok {α : Type} (rows : List α) (x : α) (h : single rows = .ok x) :
    rows = [x] := by
  match rows, h with
  | [r], h =>
    simp only [single, Except.ok.injEq] at h
    rw [h]

theorem eq_singleton_of_nodup {α : Type} (l : List α) (r : α) (hn : l.Nodup)
    (hall : ∀ x ∈ l, x = r) (hr : r ∈ l) : l = [r] := by
  match l, hn, hall, hr with
  | [a], _, hall, _ => rw [hall a (List.mem_singleton_self a)]
  | a :: b :: t, hn, hall, _ =>
    exfalso
    have ha : a = r := hall a (List.mem_cons_self a _)
    have hb : b = r := hall b (List.mem_cons_of_mem a (List.mem_cons_self b t))
    have hab : a ≠ b := by
      intro hab
      have := (List.nodup_cons.1 hn).1
      exact this (hab ▸ List.mem_cons_self b t)
    exact hab (ha.trans hb.symm)

theorem nodup_of_ids (users : List User) (h : (users.map (fun x => x.id)).Nodup) :
    users.Nodup :=
  List.Nodup.of_map _ h

theorem eq_of_id_eq (users : List User) (h : (users.map (fun x => x.id)).Nodup)
    (x r : User) (hx : x ∈ users) (hr : r ∈ users) (hid : x.id = r.id) : x = r :=
  List.inj_on_of_nodup_map h hx hr hid

theorem filter_unique (users : List User) (h : (users.map (fun x => x.id)).Nodup)
    (p : User → Bool) (r : User) (hr : r ∈ users) (hp : p r = true)
    (hall : ∀ x ∈ users, p x = true → x = r) : users.filter p = [r] := by
  apply eq_singleton_of_nodup
  · exact (nodup_of_ids users h).filter p
  · intro x hx
    exact hall x (List.mem_filter.1 hx).1 (List.mem_filter.1 hx).2
  · exact List.mem_filter.2 ⟨hr, hp⟩

theorem filter_id_unique (users : List User) (h : (users.map (fun x => x.id)).Nodup)
    (r : User) (hr : r ∈ users) :
    users.filter (fun x => x.id = r.id) = [r] := by
  apply filter_unique users h _ r hr
  · simp
  · intro x hx hp
    exact eq_of_id_eq users h x r hx hr (by simpa using hp)

theorem confirmEmail_of_holder (s : Store) (t : String) (r : User) (ht : t ≠ "")
    (hf : s.users.filter (fun x => x.email_confirmation_token = some t) = [r])
    (hunc : r.email_confirmed = false) :
    confirmEmail s (some t)
      = (⟨200, .text "Email подтверждён!"⟩,
          { s with users := s.users.map (fun x =>
              if x.id = r.id then markConfirmed x else x) }) := by
  unfold confirmEmail
  have hp : present (some t) = true := by simp [present, ht]
  simp [hp, hf, single, hunc]

/-- C6: in a store (ids of `users` being a key) where row `r` is the one row that
holds the non-empty confirmation token `t` and `r` is unconfirmed, the first
`ConfirmEmail(t)` replies 200 and changes the store only in that the row `r` now has
`email_confirmed = true` and `email_confirmation_token = null`, its id, email and
creation time kept, every other row being as it was; a second `ConfirmEmail(t)`
right after replies 400 "invalid token" and changes nothing. -/
theorem confirmEmail_single_use (s : Store) (t : String) (r : User)
    (hids : (s.users.map (fun x => x.id)).Nodup) (ht : t ≠ "") (hr : r ∈ s.users)
    (htok : r.email_confirmation_token = some t) (hunc : r.email_confirmed = false)
    (huniq : ∀ x ∈ s.users, x.email_confirmation_token = some t → x = r) :
    (confirmEmail s (some t)).1 = ⟨200, .text "Email подтверждён!"⟩ ∧
    (confirmEmail s (some t)).2
      = { s with
          users := s.users.map (fun x =>
            if x = r then
              { id := r.id, email := r.email, email_confirmation_token := none,
                email_confirmed := true, created_at := r.created_at }
            else x) } ∧
    confirmEmail (confirmEmail s (some t)).2 (some t)
      = (⟨400, .error "Неверный токен"⟩, (confirmEmail s (some t)).2) := by
  have hf : s.users.filter (fun x => x.email_confirmation_token = some t) = [r] := by
    apply filter_unique s.users hids _ r hr
    · simp [htok]
    · intro x hx hp
      exact huniq x hx (by simpa using hp)
  have hmap : s.users.map (fun x => if x.id = r.id then markConfirmed x else x)
      = s.users.map (fun x =>
          if x = r then
            { id := r.id, email := r.email, email_confirmation_token := none,
              email_confirmed := true, created_at := r.created_at }
          else x) := by
    apply List.map_congr_left
    intro x hx
    by_cases hxr : x = r
    · simp [hxr, markConfirmed]
    · have : x.id ≠ r.id := fun hid => hxr (eq_of_id_eq s.users hids x r hx hr hid)
      simp [hxr, this]
  rw [confirmEmail_of_holder s t r ht hf hunc, hmap]
  refine ⟨rfl, rfl, ?_⟩
  have hnone : (s.users.map (fun x =>
        if x = r then
          ({ id := r.id, email := r.email, email_confirmation_token := none,
             email_confirmed := true, created_at := r.created_at } : User)
        else x)).filter
      (fun x => x.email_confirmation_token = some t) = [] := by
    apply filter_eq_nil_of_forall
    intro y hy
    obtain ⟨x, hx, rfl⟩ := List.mem_map.1 hy
    by_cases hxr : x = r
    · simp [hxr]
    · have : x.email_confirmation_token ≠ some t := fun h => hxr (huniq x hx h)
      simp [hxr, this]
  have hp : present (some t) = true := by simp [present, ht]
  unfold confirmEmail
  simp [hp, hnone, single]

/-- C6 at `storePending` with the token of `alice`: her row becomes confirmed with a
null token, the row of `bob` stays, and the second call is refused. -/
theorem confirmEmail_single_use_witness :
    (confirmEmail storePending (some "tok-a")).1 = ⟨200, .text "Email подтверждён!"⟩ ∧
    (confirmEmail storePending (some "tok-a")).2
      = { storePending with
          users :=
            [{ id := "u1", email := "alice@example.com", email_confirmation_token := none,
               email_confirmed := true, created_at := "2024-05-01T00:00:00.000Z" },
             { id := "u2", email := "bob@example.com", email_confirmation_token := none,
               email_confirmed := true, created_at := "2024-04-01T00:00:00.000Z" }] } ∧
    confirmEmail (confirmEmail storePending (some "tok-a")).2 (some "tok-a")
      = (⟨400, .error "Неверный токен"⟩, (confirmEmail storePending (some "tok-a")).2) :=
  confirmEmail_single_use storePending "tok-a" rowAlice (by decide) (by decide) (by decide)
    (by decide) (by decide) (by decide)

theorem login_of_row (cred : CredentialService) (secret : String) (s : Store)
    (body : JsObj) (clk : Clock) (au : AuthUser) (x : User)
    (hcred : cred (field body "email") (field body "password") = .ok au)
    (hf : s.users.filter (fun r => r.id = au.id) = [x]) :
    login cred secret s body clk
      = if !x.email_confirmed then ⟨403, .error "Email не подтверждён"⟩
        else
          match jwtSign [("userId", .str au.id), ("email", .str au.email)]
              secret sevenDays clk with
          | .error _ => ⟨500, .error "Ошибка сервера при входе"⟩
          | .ok token => ⟨200, .session token au.id au.email⟩ := by
  unfold login
  simp only [hcred, hf, single]

theorem filter_map_ids (users : List User) (f : User → User) (k : UserId)
    (hf : ∀ x, (f x).id = x.id) :
    (users.map f).filter (fun r => r.id = k) = (users.filter (fun r => r.id = k)).map f := by
  induction users with
  | nil => rfl
  | cons a t ih =>
    by_cases ha : a.id = k
    · simp [List.filter_cons, hf a, ha, ih]
    · simp [List.filter_cons, hf a, ha, ih]

/-- C7: for a user whose credentials the Credential Service accepts and whose row `r`
is the row of `users` with the identity id (ids being a key): while `r` is unconfirmed
Login replies 403 with no token, whatever the signing secret; and once `ConfirmEmail`
with the token of `r` has replied 200, Login with the same credentials on a server
whose signing secret has a value replies 200 with a token signed with that secret
whose payload holds the id and email of the identity, issued now and expiring 7 days
later. -/
theorem login_gated_by_confirmation (cred : CredentialService) (secret : String)
    (s : Store) (body : JsObj) (au : AuthUser) (r : User)
    (hcred : cred (field body "email") (field body "password") = .ok au)
    (hids : (s.users.map (fun x => x.id)).Nodup) (hr : r ∈ s.users) (hid : r.id = au.id) :
    (∀ clk, r.email_confirmed = false →
      (login cred secret s body clk).status = 403 ∧
      tokenOf (login cred secret s body clk) = none) ∧
    (∀ t clk, secret ≠ "" → r.email_confirmation_token = some t →
      (confirmEmail s (some t)).1.status = 200 →
      ∃ tok, login cred secret (confirmEmail s (some t)).2 body clk
          = ⟨200, .session tok au.id au.email⟩ ∧
        tok.key = secret ∧
        field tok.payload "userId" = .str au.id ∧
        field tok.payload "email" = .str au.email ∧
        field tok.payload "iat" = .num (Decimal.ofInt clk.unixSec) ∧
        field tok.payload "exp"
          = .num (Decimal.ofInt ((clk.unixSec : Int) + 7 * 24 * 60 * 60))) := by
  have hrow : s.users.filter (fun x => x.id = au.id) = [r] := by
    rw [← hid]
    exact filter_id_unique s.users hids r hr
  refine ⟨fun clk hunc => ?_, fun t clk hsecret htok hok => ?_⟩
  · rw [login_of_row cred secret s body clk au r hcred hrow]
    simp [hunc, tokenOf]
  · have hstep : (confirmEmail s (some t)).2
        = { s with users := s.users.map (fun x =>
              if x.id = r.id then markConfirmed x else x) } := by
      unfold confirmEmail at hok ⊢
      by_cases hp : present (some t) = true
      · simp only [hp, Bool.not_true, Bool.false_eq_true, if_false] at hok ⊢
        cases hs : single (s.users.filter (fun x => x.email_confirmation_token = some t)) with
        | error e =>
          rw [hs] at hok
          simp at hok
        | ok user =>
          have hl := single_eq_ok _ _ hs
          have hmem : r ∈ s.users.filter (fun x => x.email_confirmation_token = some t) :=
            List.mem_filter.2 ⟨hr, by simp [htok]⟩
          rw [hl, List.mem_singleton] at hmem
          subst hmem
          rw [hs] at hok
          by_cases hc : r.email_confirmed = true
          · simp [hc] at hok
          · simp [hc]
      · simp [hp] at hok
    have hrow2 : (confirmEmail s (some t)).2.users.filter (fun x => x.id = au.id)
        = [markConfirmed r] := by
      rw [hstep]
      show (s.users.map (fun x => if x.id = r.id then markConfirmed x else x)).filter
        (fun x => x.id = au.id) = [markConfirmed r]
      rw [filter_map_ids, hrow]
      · simp
      · intro x
        by_cases hx : x.id = r.id
        · simp [hx, markConfirmed]
        · simp [hx]
    rw [login_of_row cred secret _ body clk au (markConfirmed r) hcred hrow2]
    refine ⟨{ payload := [("userId", .str au.id), ("email", .str au.email),
                ("iat", .num (Decimal.ofInt clk.unixSec)),
                ("exp", .num (Decimal.ofInt ((clk.unixSec : Int) + 7 * 24 * 60 * 60)))]
              key := secret }, ?_, rfl, ?_, ?_, ?_, ?_⟩
    · simp [markConfirmed, jwtSign, hsecret, sevenDays]
    · simp [field, List.lookup]
    · simp [field, List.lookup]
    · simp [field, List.lookup]
    · simp [field, List.lookup]

/-- C7 at `storePending`: `alice` is refused before and admitted after confirmation. -/
theorem login_gated_by_confirmation_witness :
    ((login credAlice "secret" storePending loginBody clkMay).status = 403 ∧
      tokenOf (login credAlice "secret" storePending loginBody clkMay) = none) ∧
    ∃ tok, login credAlice "secret" (confirmEmail storePending (some "tok-a")).2 loginBody
          clkMay
        = ⟨200, .session tok "u1" "alice@example.com"⟩ ∧
      tok.key = "secret" ∧
      field tok.payload "userId" = .str "u1" ∧
      field tok.payload "email" = .str "alice@example.com" ∧
      field tok.payload "iat" = .num 1715767200 ∧
      field tok.payload "exp" = .num 1716372000 :=
  ⟨(login_gated_by_confirmation credAlice "secret" storePending loginBody
      ⟨"u1", "alice@example.com"⟩ rowAlice rfl (by decide) (by decide) rfl).1 clkMay rfl,
    (login_gated_by_confirmation credAlice "secret" storePending loginBody
      ⟨"u1", "alice@example.com"⟩ rowAlice rfl (by decide) (by decide) rfl).2 "tok-a" clkMay
      (by decide) rfl (by decide)⟩

/-- With no signing secret configured `jwt.sign` throws and Login, for a confirmed user
with accepted credentials, replies 500. -/
theorem login_without_secret :
    login credAlice "" storeAlice loginBody clkMay
      = ⟨500, .error "Ошибка сервера при входе"⟩ := by
  decide

/-! ## What the summary routes sum -/

theorem foldl_amounts {α : Type} (f : α → Decimal) (l : List α) (acc : Decimal) :
    l.foldl (fun sum x => sum + f x) acc
      = (l.map f).foldl (fun sum amount => sum + amount) acc := by
  induction l generalizing acc with
  | nil => rfl
  | cons x xs ih => simp only [List.foldl_cons, List.map_cons, ih]

theorem joinCategory_of_ref (cats : List Category) (e : Expense)
    (h : ∃ c ∈ cats, e.category_id = some c.id) :
    ∃ row, joinCategory cats e = some row ∧ row.amount = e.amount := by
  obtain ⟨c, hc, he⟩ := h
  cases hf : cats.find? (fun x => decide (x.id = c.id)) with
  | none =>
    have := List.find?_eq_none.1 hf c hc
    simp at this
  | some d =>
    refine ⟨{ amount := e.amount, date := e.date, name := d.name, priority := d.priority },
      ?_, rfl⟩
    simp only [joinCategory, he, hf, Option.map]

theorem filterMap_join_amounts (cats : List Category) (l : List Expense)
    (h : ∀ e ∈ l, ∃ c ∈ cats, e.category_id = some c.id) :
    ((l.filterMap (joinCategory cats)).map (fun r => r.amount)) = l.map (fun e => e.amount) := by
  induction l with
  | nil => rfl
  | cons e es ih =>
    obtain ⟨row, hrow, hamt⟩ := joinCategory_of_ref cats e (h e (List.mem_cons_self e es))
    have hes := ih (fun x hx => h x (List.mem_cons_of_mem e hx))
    simp [List.filterMap_cons, hrow, hamt, hes]

/-- When every expense of the user refers to an existing category, the unfiltered
`GET /expenses/summary` and `GET /expenses/summary/month` reply the same total, the
sum of the amounts of the user's expenses dated within `firstDay .. lastDay`; and
`GET /expenses/summary?date=` with today's date and `GET /expenses/summary/today`
reply the same total. -/
theorem summary_totals_agree_when_categorised (s : Store) (u : UserId) (clk : Clock)
    (h : ∀ e ∈ s.expenses, e.user_id = u → ∃ c ∈ s.categories, e.category_id = some c.id) :
    totalOf (getSummary s u ⟨none, none, none⟩ clk) = totalOf (getSummaryMonth s u clk) ∧
    totalOf (getSummaryMonth s u clk)
      = some (((s.expenses.filter (fun e => e.user_id = u ∧
          dateLe (firstDay clk) e.date ∧ dateLe e.date (lastDay clk))).map
            (fun e => e.amount)).foldl (fun sum amount => sum + amount) 0) ∧
    (isoDatePart clk.iso ≠ "" →
      totalOf (getSummary s u ⟨some (isoDatePart clk.iso), none, none⟩ clk)
        = totalOf (getSummaryToday s u clk)) := by
  have hjoin : ∀ p : Expense → Bool,
      ((s.expenses.filter (fun e => decide (e.user_id = u) && p e)).filterMap
          (joinCategory s.categories)).map (fun r => r.amount)
        = (s.expenses.filter (fun e => decide (e.user_id = u) && p e)).map
            (fun e => e.amount) := by
    intro p
    apply filterMap_join_amounts
    intro e he
    have hm := List.mem_filter.1 he
    have hu : e.user_id = u := by
      have := hm.2
      simp only [Bool.and_eq_true, decide_eq_true_eq] at this
      exact this.1
    exact h e hm.1 hu
  refine ⟨?_, ?_, ?_⟩
  · have := hjoin (fun e => dateLe (firstDay clk) e.date && dateLe e.date (lastDay clk))
    simp only [getSummary, getSummaryMonth, totalOf, summaryWindow, present,
      Bool.false_eq_true, if_false, Bool.false_and, foldl_amounts,
      Bool.decide_and, Bool.decide_eq_true] at this ⊢
    rw [this]
  · simp only [getSummaryMonth, totalOf, Bool.decide_and, Bool.decide_eq_true]
  · intro hne
    have := hjoin (fun e => decide (e.date = isoDatePart clk.iso))
    have hp : present (some (isoDatePart clk.iso)) = true := by simp [present, hne]
    simp only [getSummary, getSummaryToday, totalOf, summaryWindow, hp, if_true,
      foldl_amounts, Bool.decide_and, Bool.decide_eq_true] at this ⊢
    have hb : ∀ e : Expense, (some e.date == some (isoDatePart clk.iso))
        = decide (e.date = isoDatePart clk.iso) := by
      intro e
      by_cases he : e.date = isoDatePart clk.iso <;> simp [he]
    simp only [hb]
    rw [this]

/-! ## Defaulting of expense fields -/

theorem falsy_iff (v : JsVal) : Falsy v ↔ v.truthy = false := by
  cases v <;> simp [Falsy, JsVal.truthy]

theorem orElse_of_falsy (v d : JsVal) (h : Falsy v) : v.orElse d = d := by
  unfold JsVal.orElse
  rw [(falsy_iff v).1 h]
  rfl

theorem orElse_of_truthy (v d : JsVal) (h : ¬ Falsy v) : v.orElse d = v := by
  unfold JsVal.orElse
  have : v.truthy = true := by
    cases ht : v.truthy with
    | true => rfl
    | false => exact absurd ((falsy_iff v).2 ht) h
  rw [this]
  rfl

theorem writeAmount_new (v : JsVal) (r : Decimal) :
    writeAmount v none = .ok r ↔ v = .num r := by
  cases v <;> simp [writeAmount]

theorem writeAmount_kept (v : JsVal) (o r : Decimal) :
    writeAmount v (some o) = .ok r ↔ v = .num r ∨ (v = .undefined ∧ o = r) := by
  cases v <;> simp [writeAmount]

theorem writeNote_orElse (v : JsVal) (old r : Option String) :
    writeNote (v.orElse .null) old = .ok r ↔
      (Falsy v ∧ r = none) ∨ ∃ x, v = .str x ∧ x ≠ "" ∧ r = some x := by
  by_cases hf : Falsy v
  · rw [orElse_of_falsy v _ hf]
    constructor
    · intro h
      left
      simp only [writeNote, Except.ok.injEq] at h
      exact ⟨hf, h.symm⟩
    · rintro (⟨-, hr⟩ | ⟨x, hv, hx, -⟩)
      · rw [hr]
        rfl
      · rw [hv] at hf
        exact absurd hf hx
  · rw [orElse_of_truthy v _ hf]
    constructor
    · intro h
      right
      cases v with
      | str x =>
        simp only [writeNote, Except.ok.injEq] at h
        exact ⟨x, rfl, hf, h.symm⟩
      | undefined => exact absurd trivial hf
      | null => exact absurd trivial hf
      | bool b => simp [writeNote] at h
      | num d => simp [writeNote] at h
      | composite => simp [writeNote] at h
    · rintro (⟨hfv, -⟩ | ⟨x, hv, -, hr⟩)
      · exact absurd hfv hf
      · rw [hv, hr]
        rfl

theorem writeDate_orElse (v : JsVal) (now : String) (old : Option String) (r : String) :
    writeDate (v.orElse (.str now)) old = .ok r ↔
      (Falsy v ∧ r = now) ∨ ∃ x, v = .str x ∧ x ≠ "" ∧ r = x := by
  by_cases hf : Falsy v
  · rw [orElse_of_falsy v _ hf]
    constructor
    · intro h
      left
      simp only [writeDate, Except.ok.injEq] at h
      exact ⟨hf, h.symm⟩
    · rintro (⟨-, hr⟩ | ⟨x, hv, hx, -⟩)
      · rw [hr]
        rfl
      · rw [hv] at hf
        exact absurd hf hx
  · rw [orElse_of_truthy v _ hf]
    constructor
    · intro h
      right
      cases v with
      | str x =>
        simp only [writeDate, Except.ok.injEq] at h
        exact ⟨x, rfl, hf, h.symm⟩
      | undefined => exact absurd trivial hf
      | null => exact absurd trivial hf
      | bool b => cases old <;> simp [writeDate] at h
      | num d => cases old <;> simp [writeDate] at h
      | composite => cases old <;> simp [writeDate] at h
    · rintro (⟨hfv, -⟩ | ⟨x, hv, -, hr⟩)
      · exact absurd hfv hf
      · rw [hv, hr]
        rfl

theorem writeCategoryId_orElse (cats : List Category) (v : JsVal) (old r : Option Nat) :
    writeCategoryId cats (v.orElse .null) old = .ok r ↔
      (Falsy v ∧ r = none) ∨
      ∃ d, ∃ n : Nat, v = .num d ∧ d.mantissa ≠ 0 ∧ d.toInt? = some (n : Int) ∧
        (∃ c ∈ cats, c.id = n) ∧ r = some n := by
  by_cases hf : Falsy v
  · rw [orElse_of_falsy v _ hf]
    constructor
    · intro h
      left
      simp only [writeCategoryId, Except.ok.injEq] at h
      exact ⟨hf, h.symm⟩
    · rintro (⟨-, hr⟩ | ⟨d, n, hv, hd, -⟩)
      · rw [hr]
        rfl
      · rw [hv] at hf
        exact absurd hf hd
  · rw [orElse_of_truthy v _ hf]
    cases v with
    | undefined => exact absurd trivial hf
    | null => exact absurd trivial hf
    | bool b =>
      constructor
      · intro h
        simp [writeCategoryId] at h
      · rintro (⟨hfv, -⟩ | ⟨d, n, hv, -⟩)
        · exact absurd hfv hf
        · cases hv
    | str x =>
      constructor
      · intro h
        simp [writeCategoryId] at h
      · rintro (⟨hfv, -⟩ | ⟨d, n, hv, -⟩)
        · exact absurd hfv hf
        · cases hv
    | composite =>
      constructor
      · intro h
        simp [writeCategoryId] at h
      · rintro (⟨hfv, -⟩ | ⟨d, n, hv, -⟩)
        · exact absurd hfv hf
        · cases hv
    | num d =>
      have hd : d.mantissa ≠ 0 := hf
      cases hm : d.toInt? with
      | none =>
        simp only [writeCategoryId, hm]
        constructor
        · intro h
          cases h
        · rintro (⟨hfv, -⟩ | ⟨d1, n, hv, -, hn, -⟩)
          · exact absurd hfv hf
          · cases hv
            rw [hm] at hn
            cases hn
      | some m =>
        simp only [writeCategoryId, hm]
        by_cases hok : 0 ≤ m ∧ ∃ c ∈ cats, c.id = m.toNat
        · rw [if_pos hok]
          constructor
          · intro hr
            right
            simp only [Except.ok.injEq] at hr
            refine ⟨d, m.toNat, rfl, hd, ?_, hok.2, hr.symm⟩
            rw [hm, Int.toNat_of_nonneg hok.1]
          · rintro (⟨hfv, -⟩ | ⟨d1, n, hv, -, hn, -, hr⟩)
            · exact absurd hfv hf
            · cases hv
              rw [hm] at hn
              have hmn : m = (n : Int) := Option.some.inj hn
              rw [hr, hmn, Int.toNat_natCast]
        · rw [if_neg hok]
          constructor
          · intro h
            cases h
          · rintro (⟨hfv, -⟩ | ⟨d1, n, hv, -, hn, hc, -⟩)
            · exact absurd hfv hf
            · exfalso
              cases hv
              rw [hm] at hn
              have hmn : m = (n : Int) := Option.some.inj hn
              apply hok
              rw [hmn, Int.toNat_natCast]
              exact ⟨Int.natCast_nonneg n, hc⟩

theorem newExpense_ok_iff (cats : List Category) (id : Nat) (u : UserId)
    (p : ExpensePayload) (R : Expense) :
    newExpense cats id u p = .ok R ↔
      writeAmount p.amount none = .ok R.amount ∧ writeNote p.note none = .ok R.note ∧
      writeCategoryId cats p.category_id none = .ok R.category_id ∧
      writeDate p.date none = .ok R.date ∧ R.id = id ∧ R.user_id = u := by
  unfold newExpense
  cases writeAmount p.amount none <;> cases writeNote p.note none <;>
    cases writeCategoryId cats p.category_id none <;> cases writeDate p.date none <;>
    simp
  cases R
  simp only [Expense.mk.injEq]
  constructor
  · rintro ⟨h1, h2, h3, h4, h5, h6⟩
    exact ⟨h3, h4, h5, h6, h1.symm, h2.symm⟩
  · rintro ⟨h3, h4, h5, h6, h1, h2⟩
    exact ⟨h1.symm, h2.symm, h3, h4, h5, h6⟩

theorem applyExpensePayload_ok_iff (cats : List Category) (p : ExpensePayload)
    (e R : Expense) :
    applyExpensePayload cats p e = .ok R ↔
      writeAmount p.amount (some e.amount) = .ok R.amount ∧
      writeNote p.note e.note = .ok R.note ∧
      writeCategoryId cats p.category_id e.category_id = .ok R.category_id ∧
      writeDate p.date (some e.date) = .ok R.date ∧ R.id = e.id ∧ R.user_id = e.user_id := by
  unfold applyExpensePayload
  cases writeAmount p.amount (some e.amount) <;> cases writeNote p.note e.note <;>
    cases writeCategoryId cats p.category_id e.category_id <;>
    cases writeDate p.date (some e.date) <;>
    simp
  cases R
  simp only [Expense.mk.injEq]
  constructor
  · rintro ⟨h1, h2, h3, h4, h5, h6⟩
    exact ⟨h3, h4, h5, h6, h1.symm, h2.symm⟩
  · rintro ⟨h3, h4, h5, h6, h1, h2⟩
    exact ⟨h1.symm, h2.symm, h3, h4, h5, h6⟩

theorem defaulted_of_writes (cats : List Category) (body : JsObj) (clk : Clock)
    (R : Expense) (o1 : Option String) (o2 : Option Nat) (o3 : Option String)
    (hn : writeNote (expensePayload body clk).note o1 = .ok R.note)
    (hc : writeCategoryId cats (expensePayload body clk).category_id o2 = .ok R.category_id)
    (hd : writeDate (expensePayload body clk).date o3 = .ok R.date) :
    DefaultedFrom body clk R ∧ FitsOptionals cats body := by
  have hn1 := (writeNote_orElse (field body "note") o1 R.note).1 hn
  have hc1 := (writeCategoryId_orElse cats (field body "category_id") o2 R.category_id).1 hc
  have hd1 := (writeDate_orElse (field body "date") clk.iso o3 R.date).1 hd
  refine ⟨⟨?_, ?_, ?_, ?_, ?_, ?_⟩, ?_, ?_, ?_⟩
  · intro x hv hx
    rcases hn1 with ⟨hf, -⟩ | ⟨y, hy, -, hr⟩
    · rw [hv] at hf
      exact absurd hf hx
    · rw [hv] at hy
      cases hy
      exact hr
  · intro hf
    rcases hn1 with ⟨-, hr⟩ | ⟨y, hy, hne, -⟩
    · exact hr
    · rw [hy] at hf
      exact absurd hf hne
  · intro d hv hd0
    rcases hc1 with ⟨hf, -⟩ | ⟨d1, n, hy, -, hn1, -, hr⟩
    · rw [hv] at hf
      exact absurd hf hd0
    · rw [hv] at hy
      cases hy
      exact ⟨n, hn1, hr⟩
  · intro hf
    rcases hc1 with ⟨-, hr⟩ | ⟨d1, n, hy, hne, -⟩
    · exact hr
    · rw [hy] at hf
      exact absurd hf hne
  · intro x hv hx
    rcases hd1 with ⟨hf, -⟩ | ⟨y, hy, -, hr⟩
    · rw [hv] at hf
      exact absurd hf hx
    · rw [hv] at hy
      cases hy
      exact hr
  · intro hf
    rcases hd1 with ⟨-, hr⟩ | ⟨y, hy, hne, -⟩
    · exact hr
    · rw [hy] at hf
      exact absurd hf hne
  · rcases hn1 with ⟨hf, -⟩ | ⟨y, hy, -, -⟩
    · exact Or.inl hf
    · exact Or.inr ⟨y, hy⟩
  · rcases hc1 with ⟨hf, -⟩ | ⟨d1, n, hy, -, hn1, hex, -⟩
    · exact Or.inl hf
    · exact Or.inr ⟨d1, n, hy, hn1, hex⟩
  · rcases hd1 with ⟨hf, -⟩ | ⟨y, hy, -, -⟩
    · exact Or.inl hf
    · exact Or.inr ⟨y, hy⟩

theorem writes_of_fits (cats : List Category) (body : JsObj) (clk : Clock)
    (h : FitsOptionals cats body) :
    ∃ rn rc rd, ∀ (o1 : Option String) (o2 : Option Nat) (o3 : Option String),
      writeNote (expensePayload body clk).note o1 = .ok rn ∧
      writeCategoryId cats (expensePayload body clk).category_id o2 = .ok rc ∧
      writeDate (expensePayload body clk).date o3 = .ok rd := by
  obtain ⟨hn, hc, hd⟩ := h
  have en : ∃ rn, ∀ o1, writeNote (expensePayload body clk).note o1 = .ok rn := by
    by_cases hf : Falsy (field body "note")
    · exact ⟨none, fun o1 => (writeNote_orElse _ o1 none).2 (Or.inl ⟨hf, rfl⟩)⟩
    · rcases hn with hf1 | ⟨x, hx⟩
      · exact absurd hf1 hf
      · refine ⟨some x, fun o1 => (writeNote_orElse _ o1 (some x)).2
          (Or.inr ⟨x, hx, ?_, rfl⟩)⟩
        intro hx0
        apply hf
        rw [hx, hx0]
        rfl
  have ec : ∃ rc, ∀ o2,
      writeCategoryId cats (expensePayload body clk).category_id o2 = .ok rc := by
    by_cases hf : Falsy (field body "category_id")
    · exact ⟨none, fun o2 => (writeCategoryId_orElse cats _ o2 none).2 (Or.inl ⟨hf, rfl⟩)⟩
    · rcases hc with hf1 | ⟨d, n, hv, hn1, hex⟩
      · exact absurd hf1 hf
      · refine ⟨some n, fun o2 => (writeCategoryId_orElse cats _ o2 (some n)).2
          (Or.inr ⟨d, n, hv, ?_, hn1, hex, rfl⟩)⟩
        intro hd0
        apply hf
        rw [hv]
        exact hd0
  have ed : ∃ rd, ∀ o3, writeDate (expensePayload body clk).date o3 = .ok rd := by
    by_cases hf : Falsy (field body "date")
    · exact ⟨clk.iso, fun o3 => (writeDate_orElse _ clk.iso o3 clk.iso).2 (Or.inl ⟨hf, rfl⟩)⟩
    · rcases hd with hf1 | ⟨x, hx⟩
      · exact absurd hf1 hf
      · refine ⟨x, fun o3 => (writeDate_orElse _ clk.iso o3 x).2 (Or.inr ⟨x, hx, ?_, rfl⟩)⟩
        intro hx0
        apply hf
        rw [hx, hx0]
        rfl
  obtain ⟨rn, hrn⟩ := en
  obtain ⟨rc, hrc⟩ := ec
  obtain ⟨rd, hrd⟩ := ed
  exact ⟨rn, rc, rd, fun o1 o2 o3 => ⟨hrn o1, hrc o2, hrd o3⟩⟩

theorem updateWhere_rejected {α : Type} (p : α → Bool) (f : α → Except String α)
    (rows : List α) (hf : ∀ r ∈ rows, p r = true → ∃ m, f r = .error m)
    (hex : ∃ r ∈ rows, p r = true) : ∃ m, updateWhere p f rows = .error m := by
  induction rows with
  | nil =>
    obtain ⟨r, hr, -⟩ := hex
    cases hr
  | cons r rs ih =>
    have hrs : ∀ x ∈ rs, p x = true → ∃ m, f x = .error m :=
      fun x hx => hf x (List.mem_cons_of_mem r hx)
    cases hu : updateWhere p f rs with
    | error m => exact ⟨m, by simp [updateWhere, hu]⟩
    | ok res =>
      by_cases hr : p r = true
      · obtain ⟨m, hm⟩ := hf r (List.mem_cons_self r rs) hr
        exact ⟨m, by simp [updateWhere, hu, hr, hm]⟩
      · exfalso
        obtain ⟨x, hx, hpx⟩ := hex
        rcases List.mem_cons.1 hx with rfl | hx1
        · exact hr hpx
        · obtain ⟨m, hm⟩ := ih hrs ⟨x, hx1, hpx⟩
          rw [hu] at hm
          cases hm

theorem updateWhere_total {α : Type} (p : α → Bool) (f : α → Except String α) (g : α → α)
    (rows : List α) (h : ∀ r ∈ rows, p r = true → f r = .ok (g r)) :
    updateWhere p f rows
      = .ok (rows.map (fun r => if p r then g r else r), (rows.filter p).map g) := by
  induction rows with
  | nil => rfl
  | cons r rs ih =>
    have hrs : ∀ x ∈ rs, p x = true → f x = .ok (g x) :=
      fun x hx => h x (List.mem_cons_of_mem r hx)
    by_cases hr : p r = true
    · simp [updateWhere, ih hrs, hr, h r (List.mem_cons_self r rs) hr]
    · simp [updateWhere, ih hrs, hr]

/-- C10, amended: for every request body, `POST /expenses` either is accepted, and then
it replies 201 and appends exactly one row, owned by the caller, whose amount is the
body's amount as given, whose note and category_id are the body's values when these
are supplied and truthy and null when they are omitted or falsy, and whose date is
the body's date when it is supplied and truthy and the current timestamp otherwise;
or is rejected with 500 leaving the store as it was, which happens exactly when the
amount is not a number or an optional property does not fit its column.  On a row
with the given id owned by the caller `PUT /expenses/:id` writes the same values (the
amount kept when the body omits it), leaves the id, the owner and every other row as
they were and replies 200, or is rejected with 500 leaving the store as it was. -/
theorem expense_write_defaults (s : Store) (u : UserId) (body : JsObj) (clk : Clock) :
    ((FitsOptionals s.categories body ∧ ∃ a, field body "amount" = .num a) →
      ∃ R, postExpense s u body clk
          = (⟨201, .row R⟩,
              { s with expenses := s.expenses ++ [R], expSeq := s.expSeq + 1 }) ∧
        R.id = s.expSeq ∧ R.user_id = u ∧ field body "amount" = .num R.amount ∧
        DefaultedFrom body clk R) ∧
    (¬ (FitsOptionals s.categories body ∧ ∃ a, field body "amount" = .num a) →
      (postExpense s u body clk).1.status = 500 ∧ (postExpense s u body clk).2 = s) ∧
    ∀ i : Nat, (∃ e ∈ s.expenses, e.id = i ∧ e.user_id = u) →
      ((FitsOptionals s.categories body ∧
          (field body "amount" = .undefined ∨ ∃ a, field body "amount" = .num a)) →
        (putExpense s u i body clk).1.status = 200 ∧
        ∃ table, (putExpense s u i body clk).2 = { s with expenses := table } ∧
          List.Forall₂ (fun e R =>
            if e.id = i ∧ e.user_id = u then
              R.id = e.id ∧ R.user_id = e.user_id ∧
              (∀ a, field body "amount" = .num a → R.amount = a) ∧
              (field body "amount" = .undefined → R.amount = e.amount) ∧
              DefaultedFrom body clk R
            else R = e) s.expenses table) ∧
      (¬ (FitsOptionals s.categories body ∧
          (field body "amount" = .undefined ∨ ∃ a, field body "amount" = .num a)) →
        (putExpense s u i body clk).1.status = 500 ∧ (putExpense s u i body clk).2 = s) := by
  refine ⟨?_, ?_, ?_⟩
  · rintro ⟨hfit, a, ha⟩
    obtain ⟨rn, rc, rd, hw⟩ := writes_of_fits s.categories body clk hfit
    obtain ⟨hn, hc, hd⟩ := hw none none none
    have hnew : newExpense s.categories s.expSeq u (expensePayload body clk)
        = .ok { id := s.expSeq, user_id := u, amount := a, note := rn, category_id := rc,
                date := rd } := by
      rw [newExpense_ok_iff]
      refine ⟨?_, hn, hc, hd, rfl, rfl⟩
      exact (writeAmount_new _ a).2 ha
    refine ⟨{ id := s.expSeq, user_id := u, amount := a, note := rn, category_id := rc,
              date := rd }, ?_, rfl, rfl, ha, ?_⟩
    · unfold postExpense
      rw [hnew]
    · exact (defaulted_of_writes s.categories body clk _ none none none hn hc hd).1
  · intro hnot
    unfold postExpense
    cases hnew : newExpense s.categories s.expSeq u (expensePayload body clk) with
    | error m => exact ⟨rfl, rfl⟩
    | ok R =>
      exfalso
      apply hnot
      obtain ⟨ha, hn, hc, hd, -, -⟩ := (newExpense_ok_iff _ _ _ _ _).1 hnew
      exact ⟨(defaulted_of_writes s.categories body clk R none none none hn hc hd).2,
        R.amount, (writeAmount_new _ _).1 ha⟩
  · rintro i ⟨e0, he0, hi0, hu0⟩
    have hex : ∃ r ∈ s.expenses,
        (fun e : Expense => decide (e.id = i ∧ e.user_id = u)) r = true :=
      ⟨e0, he0, by simp [hi0, hu0]⟩
    refine ⟨?_, ?_⟩
    · rintro ⟨hfit, hamt⟩
      obtain ⟨rn, rc, rd, hw⟩ := writes_of_fits s.categories body clk hfit
      have hupd := updateWhere_total (fun e : Expense => decide (e.id = i ∧ e.user_id = u))
        (applyExpensePayload s.categories (expensePayload body clk))
        (fun e => { e with
          amount := (match field body "amount" with | .num a => a | _ => e.amount)
          note := rn, category_id := rc, date := rd }) s.expenses
        (by
          intro e _ _
          obtain ⟨hn, hc, hd⟩ := hw e.note e.category_id (some e.date)
          rw [applyExpensePayload_ok_iff]
          refine ⟨?_, hn, hc, hd, rfl, rfl⟩
          rw [writeAmount_kept]
          rcases hamt with hun | ⟨a, ha⟩
          · right
            show field body "amount" = .undefined ∧ _
            refine ⟨hun, ?_⟩
            simp only [hun]
          · left
            show field body "amount" = .num _
            simp only [ha])
      unfold putExpense
      rw [hupd]
      have hmem : (s.expenses.filter
          (fun e : Expense => decide (e.id = i ∧ e.user_id = u))) ≠ [] := by
        intro hnil
        have : e0 ∈ s.expenses.filter
            (fun e : Expense => decide (e.id = i ∧ e.user_id = u)) :=
          List.mem_filter.2 ⟨he0, by simp [hi0, hu0]⟩
        rw [hnil] at this
        cases this
      cases hdata : s.expenses.filter
          (fun e : Expense => decide (e.id = i ∧ e.user_id = u)) with
      | nil => exact absurd hdata hmem
      | cons x xs =>
        refine ⟨rfl, _, rfl, ?_⟩
        rw [List.forall₂_map_right_iff, List.forall₂_same]
        intro e _
        by_cases hp : e.id = i ∧ e.user_id = u
        · simp only [hp, and_self, decide_True, if_true]
          obtain ⟨hn, hc, hd⟩ := hw e.note e.category_id (some e.date)
          refine ⟨trivial, trivial, ?_, ?_, ?_⟩
          · intro a ha
            simp only [ha]
          · intro hun
            simp only [hun]
          · exact (defaulted_of_writes s.categories body clk _ _ _ _ hn hc hd).1
        · simp only [hp, decide_False, if_false]
          simp
    · intro hnot
      have hrej : ∀ r ∈ s.expenses,
          (fun e : Expense => decide (e.id = i ∧ e.user_id = u)) r = true →
          ∃ m, applyExpensePayload s.categories (expensePayload body clk) r = .error m := by
        intro r _ _
        cases happ : applyExpensePayload s.categories (expensePayload body clk) r with
        | error m => exact ⟨m, rfl⟩
        | ok R =>
          exfalso
          apply hnot
          obtain ⟨ha, hn, hc, hd, -, -⟩ := (applyExpensePayload_ok_iff _ _ _ _).1 happ
          refine ⟨(defaulted_of_writes s.categories body clk R _ _ _ hn hc hd).2, ?_⟩
          rcases (writeAmount_kept _ _ _).1 ha with h1 | ⟨h1, -⟩
          · exact Or.inr ⟨R.amount, h1⟩
          · exact Or.inl h1
      obtain ⟨m, hm⟩ := updateWhere_rejected _ _ s.expenses hrej hex
      unfold putExpense
      rw [hm]
      exact ⟨rfl, rfl⟩

/-- C10, counterexample: a supplied empty note is stored as null: `POST /expenses` with the body
`{amount: 5, note: "", date: "2024-05-01"}` writes a row whose note is null. -/
theorem supplied_note_replaced_by_null :
    field bodyEmptyNote "note" = .str "" ∧
    postExpense storeEmpty "alice" bodyEmptyNote clkMay
      = (⟨201, .row { id := 1, user_id := "alice", amount := 5, note := none,
                      category_id := none, date := "2024-05-01" }⟩,
          { storeEmpty with
            expenses := [{ id := 1, user_id := "alice", amount := 5, note := none,
                           category_id := none, date := "2024-05-01" }]
            expSeq := 2 }) := by
  decide

/-- C10, amended, at bodies that supply every property (negative amount included), that
hold a decimal amount and explicit nulls, and that refer to a category that does not
exist. -/
theorem expense_write_defaults_witness :
    postExpense storeBob "bob" bodyFull clkMay
      = (⟨201, .row { id := 2, user_id := "bob", amount := -3, note := some "refund",
                      category_id := some 1, date := "2024-05-02" }⟩,
          { storeBob with
            expenses := storeBob.expenses ++
              [{ id := 2, user_id := "bob", amount := -3, note := some "refund",
                 category_id := some 1, date := "2024-05-02" }]
            expSeq := 3 }) ∧
    postExpense storeBob "bob" bodyNulls clkMay
      = (⟨201, .row { id := 2, user_id := "bob", amount := { mantissa := 105, scale := 1 },
                      note := none, category_id := none,
                      date := "2024-05-15T10:00:00.000Z" }⟩,
          { storeBob with
            expenses := storeBob.expenses ++
              [{ id := 2, user_id := "bob", amount := { mantissa := 105, scale := 1 },
                 note := none, category_id := none, date := "2024-05-15T10:00:00.000Z" }]
            expSeq := 3 }) ∧
    postExpense storeEmpty "bob" bodyFull clkMay = (⟨500, .error "category_id"⟩, storeEmpty) ∧
    putExpense storeBob "bob" 1 bodyFull clkMay
      = (⟨200, .row { id := 1, user_id := "bob", amount := -3, note := some "refund",
                      category_id := some 1, date := "2024-05-02" }⟩,
          { storeBob with
            expenses := [{ id := 1, user_id := "bob", amount := -3, note := some "refund",
                           category_id := some 1, date := "2024-05-02" }] }) ∧
    (∃ R, postExpense storeBob "bob" bodyFull clkMay
        = (⟨201, .row R⟩,
            { storeBob with
              expenses := storeBob.expenses ++ [R], expSeq := storeBob.expSeq + 1 }) ∧
      R.id = storeBob.expSeq ∧ R.user_id = "bob" ∧ field bodyFull "amount" = .num R.amount ∧
      DefaultedFrom bodyFull clkMay R) ∧
    (putExpense storeBob "bob" 1 bodyNulls clkMay).1.status = 200 :=
  have hfit : FitsOptionals storeBob.categories bodyFull :=
    ⟨Or.inr ⟨"refund", rfl⟩,
      Or.inr ⟨1, 1, rfl, by decide, ⟨_, List.mem_cons_self _ _, rfl⟩⟩,
      Or.inr ⟨"2024-05-02", rfl⟩⟩
  have hnull : FitsOptionals storeBob.categories bodyNulls :=
    ⟨Or.inl (by decide), Or.inl (by decide), Or.inl (by decide)⟩
  ⟨by decide, by decide, by decide, by decide,
    (expense_write_defaults storeBob "bob" bodyFull clkMay).1 ⟨hfit, -3, rfl⟩,
    (((expense_write_defaults storeBob "bob" bodyNulls clkMay).2.2 1
      ⟨_, List.mem_cons_self _ _, rfl, rfl⟩).1 ⟨hnull, Or.inr ⟨_, rfl⟩⟩).1⟩

end MyFinance
